import Mathlib

/-!
Shallow embedding of the mitmproxy_rs windows-redirector
(`src/windows-redirector/src/main.rs`): the classification and redirection
event loop, its connection table, policy filter, and packet dispatch.

The `packet` module (`ConnectionId`, `InternetPacket`, `TransportProtocol`)
is not part of the provided sources; its interface is modelled from the
specification (spec §3, §4.1).  Parsing itself is treated as external: a
network event carries the parse result (`Option InternetPacket`) directly,
since `InternetPacket::new` lives in the missing module.
-/

namespace Redirector

/-- Modelled from the spec: an IP address ("Addresses may be v4 or v6");
modelled as an IPv4 address, a natural number below 2^32. -/
structure Ip where
  addr : Nat
deriving DecidableEq, Repr

/-- Modelled from the spec / Rust std semantics: `IpAddr::is_multicast`
for IPv4, the range 224.0.0.0/4. -/
def Ip.is_multicast (ip : Ip) : Bool :=
  decide (224 * 2 ^ 24 ≤ ip.addr % 2 ^ 32 ∧ ip.addr % 2 ^ 32 < 240 * 2 ^ 24)

/-- Modelled from the spec / Rust std semantics: `IpAddr::is_loopback`
for IPv4, the range 127.0.0.0/8. -/
def Ip.is_loopback (ip : Ip) : Bool :=
  decide (127 * 2 ^ 24 ≤ ip.addr % 2 ^ 32 ∧ ip.addr % 2 ^ 32 < 128 * 2 ^ 24)

/-- Modelled from the spec: a socket address, an (ip, port) pair. -/
structure SocketAddr where
  ip : Ip
  port : Nat
deriving DecidableEq, Repr

/-- Modelled from the spec: the transport protocol of a five-tuple. -/
inductive TransportProtocol where
  | Tcp
  | Udp
deriving DecidableEq, Repr

/-- Modelled from the spec: the five-tuple naming a flow
(`{protocol, local = (ip, port), remote = (ip, port)}`), with the field
names `proto`/`src`/`dst` used by `main.rs` when it builds one. -/
structure ConnectionId where
  proto : TransportProtocol
  src : SocketAddr
  dst : SocketAddr
deriving DecidableEq, Repr

/-- Modelled from the spec: the total `reverse()` operation
"swapping local and remote". -/
def ConnectionId.reverse (c : ConnectionId) : ConnectionId :=
  { c with src := c.dst, dst := c.src }

/-- Process id; value 4 denotes the OS kernel. -/
abbrev PID := Nat

/-- Modelled from the spec: the output of the packet parser that the event
loop consumes: the five-tuple and the underlying byte buffer
(`inner()`) for re-emission.  `src_ip`/`dst_ip` are exposed below as the
five-tuple's endpoints. -/
structure InternetPacket where
  cid : ConnectionId
  inner : List Nat
deriving DecidableEq, Repr

/-- `packet.connection_id()`. -/
def InternetPacket.connection_id (p : InternetPacket) : ConnectionId := p.cid

/-- `packet.src_ip()`. -/
def InternetPacket.src_ip (p : InternetPacket) : Ip := p.cid.src.ip

/-- `packet.dst_ip()`. -/
def InternetPacket.dst_ip (p : InternetPacket) : Ip := p.cid.dst.ip

/-- The WinDivert per-packet arrival metadata used by `main.rs`:
direction flag, loopback flag and the three checksum-validity flags. -/
structure WinDivertNetworkData where
  outbound : Bool
  loopback : Bool
  ip_checksum : Bool
  tcp_checksum : Bool
  udp_checksum : Bool
deriving DecidableEq, Repr

/-- `WinDivertNetworkData::default()`: a zeroed address block, all flags
false. -/
def WinDivertNetworkData.zeroed : WinDivertNetworkData :=
  ⟨false, false, false, false, false⟩

/-- The socket-layer event kinds dispatched on in `main.rs`. -/
inductive WinDivertEvent where
  | SocketConnect
  | SocketAccept
  | SocketClose
  | Other
deriving DecidableEq, Repr

/-- `enum ConnectionAction` of `main.rs`: `None` (spec: Pass) or
`Intercept`. -/
inductive ConnectionAction where
  | None
  | Intercept
deriving DecidableEq, Repr

/-- `enum ConnectionState` of `main.rs`: classification complete
(`Known`), or buffering packets awaiting a socket event (`Unknown`,
called Pending in the spec). -/
inductive ConnectionState where
  | Known (a : ConnectionAction)
  | Unknown (packets : List (WinDivertNetworkData × InternetPacket))
deriving DecidableEq, Repr

/-- `enum Config` of `main.rs`: the policy value, an include or exclude
PID set (a `HashSet`, modelled as the list it was built from; membership
is what matters). -/
inductive Config where
  | InterceptInclude (pids : List PID)
  | InterceptExclude (pids : List PID)
deriving DecidableEq, Repr

/-- `Config::should_intercept` of `main.rs`. -/
def Config.should_intercept (c : Config) (pid : PID) : Bool :=
  match c with
  | .InterceptInclude pids => pids.contains pid
  | .InterceptExclude pids => !pids.contains pid

/-- The connection table: `LruCache<ConnectionId, ConnectionState>`,
modelled as an association list (first occurrence wins).  TTL expiry is
not modelled: all statements are about behaviour within the entries'
TTL. -/
abbrev Table := List (ConnectionId × ConnectionState)

/-- `connections.get(&k)` / the read part of `get_mut`: first matching
entry. -/
def lruGet : Table → ConnectionId → Option ConnectionState
  | [], _ => none
  | e :: rest, k => if e.1 = k then some e.2 else lruGet rest k

/-- `connections.insert(k, v)`: replace the (first) entry at `k`,
returning the previous value, or append a fresh entry. -/
def lruInsert : Table → ConnectionId → ConnectionState → Table × Option ConnectionState
  | [], k, v => ([(k, v)], none)
  | e :: rest, k, v =>
      if e.1 = k then ((k, v) :: rest, some e.2)
      else
        let r := lruInsert rest k v
        (e :: r.1, r.2)

/-- `connections.get_mut(&k)` followed by an in-place mutation `f` of the
entry's state (used for the Pending-buffer push and the Close-time
clear). -/
def lruModify : Table → ConnectionId → (ConnectionState → ConnectionState) → Table
  | [], _, _ => []
  | e :: rest, k, f =>
      if e.1 = k then (k, f e.2) :: rest else e :: lruModify rest k f

/-- The observable effects of one loop iteration: a send on the Inject
handle (`inject_handle.send(Network { addr, data })`) or an IPC message
to the controller (`ipc_tx.send(WinDivertIPC::Packet(data))`). -/
inductive Output where
  | inject (addr : WinDivertNetworkData) (data : List Nat)
  | ipcPacket (data : List Nat)
deriving DecidableEq, Repr

/-- `process_packet` of `main.rs`: `None` re-injects the packet's bytes
with the original metadata, `Intercept` forwards the bytes over IPC. -/
def process_packet (addr : WinDivertNetworkData) (packet : InternetPacket)
    (action : ConnectionAction) : Output :=
  match action with
  | .None => .inject addr packet.inner
  | .Intercept => .ipcPacket packet.inner

/-- `insert_into_connections` of `main.rs`: insert `Known state` at
`key`; if the previous value was `Unknown(packets)`, feed every buffered
pair through `process_packet` with the new action, in buffer order. -/
def insert_into_connections (t : Table) (key : ConnectionId)
    (state : ConnectionAction) : Table × List Output :=
  let r := lruInsert t key (.Known state)
  match r.2 with
  | some (.Unknown packets) =>
      (r.1, packets.map fun q => process_packet q.1 q.2 state)
  | _ => (r.1, [])

/-- `enum Message` of `main.rs`, with a received `Message::Packet`
already split by `wd_packet.parse()` into its Network / Socket form, and
the network payload already taken through `InternetPacket::new` (the
parser lives in the missing `packet` module; `none` is a parse
failure).  A socket event carries the metadata fields `main.rs` reads:
event kind, process id, protocol decode result, local and remote
address. -/
inductive Message where
  | NetworkPacket (addr : WinDivertNetworkData) (parsed : Option InternetPacket)
  | SocketEvent (ev : WinDivertEvent) (pid : PID) (proto : Option TransportProtocol)
      (localAddr remoteAddr : SocketAddr)
  | Inject (data : List Nat)
  | InterceptInclude (pids : List PID)
  | InterceptExclude (pids : List PID)
deriving DecidableEq, Repr

/-- The consumer-owned mutable state of the event loop: the connection
table and the policy value (`main.rs` names the latter `state`). -/
structure LoopState where
  connections : Table
  state : Config
deriving DecidableEq, Repr

/-- Initial state at startup (`main.rs` line 147-150): empty table,
policy `InterceptInclude(∅)`. -/
def initState : LoopState :=
  { connections := [], state := .InterceptInclude [] }

/-- The in-place mutation performed on a Pending entry when a further
packet for its connection arrives: `packets.push((addr, packet))`. -/
def pushPacket (addr : WinDivertNetworkData) (packet : InternetPacket) :
    ConnectionState → ConnectionState
  | .Unknown ps => .Unknown (ps ++ [(addr, packet)])
  | st => st

/-- The in-place mutation performed on a Pending entry by `SocketClose`:
`packets.clear()`; a Known entry is left untouched. -/
def clearBuffer : ConnectionState → ConnectionState
  | .Unknown _ => .Unknown []
  | st => st

/-- The metadata synthesised for a controller-injected packet
(`Message::Inject` branch): default, then outbound set, checksum flags
cleared. -/
def injectMeta : WinDivertNetworkData :=
  { WinDivertNetworkData.zeroed with
      outbound := true
      ip_checksum := false
      tcp_checksum := false
      udp_checksum := false }

/-- One iteration of the `main.rs` event loop on one merged-queue
message: the new loop state and the list of emitted effects, in emission
order. -/
def step (s : LoopState) (msg : Message) : LoopState × List Output :=
  match msg with
  | .NetworkPacket addr parsed =>
      match parsed with
      | none => (s, [])
      | some packet =>
          let is_multicast := packet.src_ip.is_multicast || packet.dst_ip.is_multicast
          let is_loopback_only := packet.src_ip.is_loopback && packet.dst_ip.is_loopback
          if is_multicast || is_loopback_only then
            (s, [.inject addr packet.inner])
          else
            match lruGet s.connections packet.connection_id with
            | some (.Known a) => (s, [process_packet addr packet a])
            | some (.Unknown _) =>
                ({ s with connections :=
                    lruModify s.connections packet.connection_id (pushPacket addr packet) }, [])
            | none =>
                if addr.outbound then
                  ({ s with connections :=
                      (lruInsert s.connections packet.connection_id
                        (.Unknown [(addr, packet)])).1 }, [])
                else
                  let connection_id := packet.connection_id
                  let r1 := insert_into_connections s.connections
                    connection_id.reverse .None
                  let r2 := insert_into_connections r1.1 connection_id .Intercept
                  ({ s with connections := r2.1 },
                   r1.2 ++ (r2.2 ++ [process_packet addr packet .Intercept]))
  | .SocketEvent ev pid proto localAddr remoteAddr =>
      if pid = 4 then (s, [])
      else
        match proto with
        | none => (s, [])
        | some proto =>
            let connection_id : ConnectionId :=
              { proto := proto, src := localAddr, dst := remoteAddr }
            if connection_id.src.ip.is_multicast || connection_id.dst.ip.is_multicast then
              (s, [])
            else
              match ev with
              | .SocketConnect | .SocketAccept =>
                  let make_entry :=
                    match lruGet s.connections connection_id with
                    | none => true
                    | some e =>
                        match e with
                        | .Unknown _ => true
                        | _ => false
                  if make_entry then
                    let action :=
                      if s.state.should_intercept pid then ConnectionAction.Intercept
                      else ConnectionAction.None
                    let r1 := insert_into_connections s.connections
                      connection_id.reverse .None
                    let r2 := insert_into_connections r1.1 connection_id action
                    ({ s with connections := r2.1 }, r1.2 ++ r2.2)
                  else (s, [])
              | .SocketClose =>
                  ({ s with connections :=
                      lruModify s.connections connection_id clearBuffer }, [])
              | _ => (s, [])
  | .Inject buf => (s, [.inject injectMeta buf])
  | .InterceptInclude a => ({ s with state := .InterceptInclude a }, [])
  | .InterceptExclude a => ({ s with state := .InterceptExclude a }, [])

/-- Run the event loop over a list of merged-queue messages, from state
`s`, collecting effects in order. -/
def run (s : LoopState) (msgs : List Message) : LoopState × List Output :=
  match msgs with
  | [] => (s, [])
  | m :: rest =>
      let r := step s m
      let r2 := run r.1 rest
      (r2.1, r.2 ++ r2.2)

/-! ### Traced outputs

For per-flow statements the byte-level effects are not attributable to a
connection, so we also give the loop a second, finer output type that
remembers which `InternetPacket` a sink call originated from; `eraseT`
recovers the byte-level effect, and `stepT`/`runT` are proved to agree
with `step`/`run` under erasure. -/

/-- A sink call remembering its originating packet: a re-injection of a
parsed packet, an IPC forward of a parsed packet, or a raw injection of
controller-supplied bytes. -/
inductive TOutput where
  | injectPkt (addr : WinDivertNetworkData) (packet : InternetPacket)
  | ipcPkt (packet : InternetPacket)
  | injectRaw (addr : WinDivertNetworkData) (data : List Nat)
deriving DecidableEq, Repr

/-- The byte-level effect of a traced sink call. -/
def eraseT : TOutput → Output
  | .injectPkt a p => .inject a p.inner
  | .ipcPkt p => .ipcPacket p.inner
  | .injectRaw a d => .inject a d

/-- `process_packet`, traced. -/
def process_packetT (addr : WinDivertNetworkData) (packet : InternetPacket)
    (action : ConnectionAction) : TOutput :=
  match action with
  | .None => .injectPkt addr packet
  | .Intercept => .ipcPkt packet

/-- `insert_into_connections`, traced. -/
def insert_into_connectionsT (t : Table) (key : ConnectionId)
    (state : ConnectionAction) : Table × List TOutput :=
  let r := lruInsert t key (.Known state)
  match r.2 with
  | some (.Unknown packets) =>
      (r.1, packets.map fun q => process_packetT q.1 q.2 state)
  | _ => (r.1, [])

/-- One loop iteration, traced. -/
def stepT (s : LoopState) (msg : Message) : LoopState × List TOutput :=
  match msg with
  | .NetworkPacket addr parsed =>
      match parsed with
      | none => (s, [])
      | some packet =>
          let is_multicast := packet.src_ip.is_multicast || packet.dst_ip.is_multicast
          let is_loopback_only := packet.src_ip.is_loopback && packet.dst_ip.is_loopback
          if is_multicast || is_loopback_only then
            (s, [.injectPkt addr packet])
          else
            match lruGet s.connections packet.connection_id with
            | some (.Known a) => (s, [process_packetT addr packet a])
            | some (.Unknown _) =>
                ({ s with connections :=
                    lruModify s.connections packet.connection_id (pushPacket addr packet) }, [])
            | none =>
                if addr.outbound then
                  ({ s with connections :=
                      (lruInsert s.connections packet.connection_id
                        (.Unknown [(addr, packet)])).1 }, [])
                else
                  let connection_id := packet.connection_id
                  let r1 := insert_into_connectionsT s.connections
                    connection_id.reverse .None
                  let r2 := insert_into_connectionsT r1.1 connection_id .Intercept
                  ({ s with connections := r2.1 },
                   r1.2 ++ (r2.2 ++ [process_packetT addr packet .Intercept]))
  | .SocketEvent ev pid proto localAddr remoteAddr =>
      if pid = 4 then (s, [])
      else
        match proto with
        | none => (s, [])
        | some proto =>
            let connection_id : ConnectionId :=
              { proto := proto, src := localAddr, dst := remoteAddr }
            if connection_id.src.ip.is_multicast || connection_id.dst.ip.is_multicast then
              (s, [])
            else
              match ev with
              | .SocketConnect | .SocketAccept =>
                  let make_entry :=
                    match lruGet s.connections connection_id with
                    | none => true
                    | some e =>
                        match e with
                        | .Unknown _ => true
                        | _ => false
                  if make_entry then
                    let action :=
                      if s.state.should_intercept pid then ConnectionAction.Intercept
                      else ConnectionAction.None
                    let r1 := insert_into_connectionsT s.connections
                      connection_id.reverse .None
                    let r2 := insert_into_connectionsT r1.1 connection_id action
                    ({ s with connections := r2.1 }, r1.2 ++ r2.2)
                  else (s, [])
              | .SocketClose =>
                  ({ s with connections :=
                      lruModify s.connections connection_id clearBuffer }, [])
              | _ => (s, [])
  | .Inject buf => (s, [.injectRaw injectMeta buf])
  | .InterceptInclude a => ({ s with state := .InterceptInclude a }, [])
  | .InterceptExclude a => ({ s with state := .InterceptExclude a }, [])

/-- Run the loop, traced. -/
def runT (s : LoopState) (msgs : List Message) : LoopState × List TOutput :=
  match msgs with
  | [] => (s, [])
  | m :: rest =>
      let r := stepT s m
      let r2 := runT r.1 rest
      (r2.1, r.2 ++ r2.2)

/-! ### Accounting functions for packet conservation -/

/-- The payload bytes a buffered pair holds. -/
def pairBytes (q : WinDivertNetworkData × InternetPacket) : List Nat := q.2.inner

/-- The payload bytes held by one connection entry. -/
def stBuf : ConnectionState → Multiset (List Nat)
  | .Known _ => 0
  | .Unknown ps => ((ps.map pairBytes : List (List Nat)) : Multiset (List Nat))

/-- The payload bytes held by an optional entry. -/
def optBuf : Option ConnectionState → Multiset (List Nat)
  | none => 0
  | some st => stBuf st

/-- The payload bytes buffered anywhere in the connection table. -/
def tblBuf : Table → Multiset (List Nat)
  | [] => 0
  | e :: t => stBuf e.2 + tblBuf t

/-- The payload bytes an effect carries to its sink. -/
def outBytes : Output → List Nat
  | .inject _ d => d
  | .ipcPacket d => d

/-- The payload bytes of a list of effects, as a multiset. -/
def outsBytes (outs : List Output) : Multiset (List Nat) :=
  ((outs.map outBytes : List (List Nat)) : Multiset (List Nat))

/-- The payload bytes a merged-queue message brings into the loop: a
successfully parsed network packet's bytes, or a controller inject
request's bytes. -/
def msgBytes : Message → Multiset (List Nat)
  | .NetworkPacket _ (some p) => {p.inner}
  | .Inject d => {d}
  | _ => 0

/-- The payload bytes a message trace brings into the loop. -/
def traceBytes : List Message → Multiset (List Nat)
  | [] => 0
  | m :: rest => msgBytes m + traceBytes rest

/-- The payload bytes dropped by one message: the buffer of a Pending
entry cleared by a `SocketClose` that passes the event filters. -/
def clearedStep (s : LoopState) : Message → Multiset (List Nat)
  | .SocketEvent .SocketClose pid proto localAddr remoteAddr =>
      if pid = 4 then 0
      else
        match proto with
        | none => 0
        | some proto =>
            let connection_id : ConnectionId :=
              { proto := proto, src := localAddr, dst := remoteAddr }
            if connection_id.src.ip.is_multicast || connection_id.dst.ip.is_multicast then 0
            else
              match lruGet s.connections connection_id with
              | some (.Unknown ps) =>
                  ((ps.map pairBytes : List (List Nat)) : Multiset (List Nat))
              | _ => 0
  | _ => 0

/-- The payload bytes dropped along a message trace. -/
def clearedRun (s : LoopState) : List Message → Multiset (List Nat)
  | [] => 0
  | m :: rest => clearedStep s m + clearedRun (step s m).1 rest

/-! ### Per-flow projections and invariant predicates -/

/-- Whether a connection id is bypassed by the multicast / pure-loopback
hints (a property of the five-tuple alone). -/
def cidBypass (k : ConnectionId) : Bool :=
  (k.src.ip.is_multicast || k.dst.ip.is_multicast)
    || (k.src.ip.is_loopback && k.dst.ip.is_loopback)

/-- The packet a traced effect dispatches for connection `k`, if any. -/
def toutFlow (k : ConnectionId) : TOutput → Option InternetPacket
  | .injectPkt _ p => if p.connection_id = k then some p else none
  | .ipcPkt p => if p.connection_id = k then some p else none
  | .injectRaw _ _ => none

/-- The packets dispatched for connection `k`, in emission order. -/
def flowOuts (k : ConnectionId) (outs : List TOutput) : List InternetPacket :=
  outs.filterMap (toutFlow k)

/-- The parsed network packet a message ingests for connection `k`, if
any. -/
def msgFlow (k : ConnectionId) : Message → Option InternetPacket
  | .NetworkPacket _ (some p) => if p.connection_id = k then some p else none
  | _ => none

/-- The packets ingested for connection `k`, in ingest order. -/
def flowIn (k : ConnectionId) (msgs : List Message) : List InternetPacket :=
  msgs.filterMap (msgFlow k)

/-- The packets buffered for connection `k`, in arrival order. -/
def pendingAt (t : Table) (k : ConnectionId) : List InternetPacket :=
  match lruGet t k with
  | some (.Unknown ps) => ps.map (·.2)
  | _ => []

/-- Every Pending buffer holds only packets of its own key (spec §3
invariant 2); holds at every reachable table. -/
def BufCoherent (t : Table) : Prop :=
  ∀ k ps, lruGet t k = some (.Unknown ps) → ∀ q ∈ ps, q.2.connection_id = k

/-- The return-path invariant: every `Known Intercept` entry at a key
distinct from its own reverse has `Known None` at the reversed key. -/
def RevInv (t : Table) : Prop :=
  ∀ k, k.reverse ≠ k → lruGet t k = some (.Known .Intercept) →
    lruGet t k.reverse = some (.Known .None)

/-- `true` iff the table holds a `Known` entry at `k`. -/
def isKnownAt (t : Table) (k : ConnectionId) : Bool :=
  match lruGet t k with
  | some (.Known _) => true
  | _ => false

/-- `true` iff the table holds a Pending (`Unknown`) entry at `k`. -/
def isUnknownAt (t : Table) (k : ConnectionId) : Bool :=
  match lruGet t k with
  | some (.Unknown _) => true
  | _ => false

/-- Number of Pending-to-Known transitions of key `k` along a trace. -/
def resCount (s : LoopState) (msgs : List Message) (k : ConnectionId) : Nat :=
  match msgs with
  | [] => 0
  | m :: rest =>
      let s' := (step s m).1
      (if isUnknownAt s.connections k && isKnownAt s'.connections k then 1 else 0)
        + resCount s' rest k

/-! ### Concrete fixtures for witnesses and counterexamples -/

/-- Fixture: the host 10.0.0.1. -/
def exIp1 : Ip := ⟨0x0a000001⟩

/-- Fixture: the host 1.2.3.4. -/
def exIp2 : Ip := ⟨0x01020304⟩

/-- Fixture: the multicast address 224.0.0.1. -/
def exIpM : Ip := ⟨224 * 2 ^ 24 + 1⟩

/-- Fixture: 10.0.0.1:5000. -/
def exSa1 : SocketAddr := ⟨exIp1, 5000⟩

/-- Fixture: 1.2.3.4:443. -/
def exSa2 : SocketAddr := ⟨exIp2, 443⟩

/-- Fixture: a TCP five-tuple 10.0.0.1:5000 → 1.2.3.4:443. -/
def exCid : ConnectionId := ⟨.Tcp, exSa1, exSa2⟩

/-- Fixture: outbound arrival metadata with valid checksums. -/
def exMd : WinDivertNetworkData := ⟨true, false, true, true, true⟩

/-- Fixture: a packet on `exCid` with payload byte 1. -/
def exPkt : InternetPacket := ⟨exCid, [1]⟩

/-- Fixture: a packet on `exCid` with payload byte 2. -/
def exPkt2 : InternetPacket := ⟨exCid, [2]⟩

/-- Fixture: a UDP packet to the multicast address 224.0.0.1. -/
def exPktM : InternetPacket := ⟨⟨.Udp, exSa1, ⟨exIpM, 53⟩⟩, [9]⟩

/-- Fixture: a self-paired socket address 10.0.0.1:7777, whose five-tuple
equals its own reverse. -/
def exSaS : SocketAddr := ⟨exIp1, 7777⟩

/-- Fixture: the self-reversed TCP five-tuple on `exSaS`. -/
def exCidS : ConnectionId := ⟨.Tcp, exSaS, exSaS⟩

/-- Fixture: a second self-paired socket address 10.0.0.1:8888. -/
def exSaS2 : SocketAddr := ⟨exIp1, 8888⟩

/-- Fixture: the self-reversed TCP five-tuple on `exSaS2`. -/
def exCidS2 : ConnectionId := ⟨.Tcp, exSaS2, exSaS2⟩

/-- Fixture: a state whose table holds one Pending entry at `exCid`
buffering `exPkt`. -/
def exPendState : LoopState :=
  { connections := [(exCid, .Unknown [(exMd, exPkt)])],
    state := .InterceptInclude [] }

/-- Fixture: a state whose table holds one Known Intercept entry at
`exCid`. -/
def exKnownState : LoopState :=
  { connections := [(exCid, .Known .Intercept)],
    state := .InterceptInclude [] }

/-! ## Connection-table lemmas -/

theorem ConnectionId.reverse_reverse (c : ConnectionId) : c.reverse.reverse = c := rfl

theorem lruInsert_snd (t : Table) (k : ConnectionId) (v : ConnectionState) :
    (lruInsert t k v).2 = lruGet t k := by
  induction t with
  | nil => rfl
  | cons e rest ih =>
      simp only [lruInsert, lruGet]
      split <;> simp [ih]

theorem lruGet_insert (t : Table) (k k' : ConnectionId) (v : ConnectionState) :
    lruGet (lruInsert t k v).1 k' = if k = k' then some v else lruGet t k' := by
  induction t with
  | nil => simp [lruInsert, lruGet]
  | cons e rest ih =>
      simp only [lruInsert, lruGet]
      by_cases h1 : e.1 = k
      · simp only [if_pos h1, lruGet, h1]
        by_cases h2 : k = k' <;> simp [h2]
      · simp only [if_neg h1, lruGet, ih]
        by_cases h2 : e.1 = k'
        · have h3 : ¬(k = k') := fun hh => h1 (h2.trans hh.symm)
          simp [h2, h3]
        · simp [h2]

theorem lruGet_modify (t : Table) (k k' : ConnectionId)
    (f : ConnectionState → ConnectionState) :
    lruGet (lruModify t k f) k' =
      if k = k' then (lruGet t k).map f else lruGet t k' := by
  induction t with
  | nil => simp [lruModify, lruGet]
  | cons e rest ih =>
      simp only [lruModify, lruGet]
      by_cases h1 : e.1 = k
      · simp only [if_pos h1, lruGet, h1]
        by_cases h2 : k = k' <;> simp [h2]
      · simp only [if_neg h1, lruGet, ih]
        by_cases h2 : e.1 = k'
        · have h3 : ¬(k = k') := fun hh => h1 (h2.trans hh.symm)
          simp [h2, h3]
        · simp [h2]

theorem lruModify_fix (t : Table) (k : ConnectionId)
    (f : ConnectionState → ConnectionState)
    (hf : ∀ v, lruGet t k = some v → f v = v) :
    lruModify t k f = t := by
  induction t with
  | nil => rfl
  | cons e rest ih =>
      simp only [lruModify, lruGet] at *
      by_cases h1 : e.1 = k
      · have := hf e.2 (by simp [h1])
        obtain ⟨ek, ev⟩ := e
        simp only at h1
        subst h1
        simp [this]
      · simp only [if_neg h1]
        rw [ih]
        intro v hv
        exact hf v (by simp [h1, hv])

theorem lruGet_insert_into (t : Table) (key k' : ConnectionId)
    (a : ConnectionAction) :
    lruGet (insert_into_connections t key a).1 k' =
      if key = k' then some (.Known a) else lruGet t k' := by
  simp only [insert_into_connections]
  rw [lruInsert_snd]
  have h := lruGet_insert t key k' (.Known a)
  rcases hg : lruGet t key with _ | st
  · simpa using h
  · cases st <;> simpa using h

theorem insert_into_drain (t : Table) (key : ConnectionId)
    (a : ConnectionAction) (ps : List (WinDivertNetworkData × InternetPacket))
    (h : lruGet t key = some (.Unknown ps)) :
    (insert_into_connections t key a).2 =
      ps.map fun q => process_packet q.1 q.2 a := by
  simp only [insert_into_connections]
  rw [lruInsert_snd, h]

theorem insert_into_no_drain (t : Table) (key : ConnectionId)
    (a : ConnectionAction)
    (h : ∀ ps, lruGet t key ≠ some (.Unknown ps)) :
    (insert_into_connections t key a).2 = [] := by
  simp only [insert_into_connections]
  rw [lruInsert_snd]
  rcases hg : lruGet t key with _ | st
  · rfl
  · cases st with
    | Known a' => rfl
    | Unknown ps => exact absurd hg (h ps)

/-! ## Branch-reduction lemmas for `step` and `run` -/

theorem step_net_none (s : LoopState) (addr : WinDivertNetworkData) :
    step s (.NetworkPacket addr none) = (s, []) := rfl

theorem step_net_bypass (s : LoopState) (addr : WinDivertNetworkData)
    (p : InternetPacket) (h : cidBypass p.connection_id = true) :
    step s (.NetworkPacket addr (some p)) = (s, [.inject addr p.inner]) := by
  have h' : ((p.src_ip.is_multicast || p.dst_ip.is_multicast)
      || (p.src_ip.is_loopback && p.dst_ip.is_loopback)) = true := h
  simp [step, h']

theorem step_net_known (s : LoopState) (addr : WinDivertNetworkData)
    (p : InternetPacket) (a : ConnectionAction)
    (hb : cidBypass p.connection_id = false)
    (hg : lruGet s.connections p.connection_id = some (.Known a)) :
    step s (.NetworkPacket addr (some p)) = (s, [process_packet addr p a]) := by
  have hb' : ((p.src_ip.is_multicast || p.dst_ip.is_multicast)
      || (p.src_ip.is_loopback && p.dst_ip.is_loopback)) = false := hb
  simp [step, hb', hg]

theorem step_net_unknown (s : LoopState) (addr : WinDivertNetworkData)
    (p : InternetPacket) (ps : List (WinDivertNetworkData × InternetPacket))
    (hb : cidBypass p.connection_id = false)
    (hg : lruGet s.connections p.connection_id = some (.Unknown ps)) :
    step s (.NetworkPacket addr (some p)) =
      ({ s with connections :=
          lruModify s.connections p.connection_id (pushPacket addr p) }, []) := by
  have hb' : ((p.src_ip.is_multicast || p.dst_ip.is_multicast)
      || (p.src_ip.is_loopback && p.dst_ip.is_loopback)) = false := hb
  simp [step, hb', hg]

theorem step_net_out (s : LoopState) (addr : WinDivertNetworkData)
    (p : InternetPacket)
    (hb : cidBypass p.connection_id = false)
    (hg : lruGet s.connections p.connection_id = none)
    (ho : addr.outbound = true) :
    step s (.NetworkPacket addr (some p)) =
      ({ s with connections :=
          (lruInsert s.connections p.connection_id (.Unknown [(addr, p)])).1 }, []) := by
  have hb' : ((p.src_ip.is_multicast || p.dst_ip.is_multicast)
      || (p.src_ip.is_loopback && p.dst_ip.is_loopback)) = false := hb
  simp [step, hb', hg, ho]

theorem step_net_in (s : LoopState) (addr : WinDivertNetworkData)
    (p : InternetPacket)
    (hb : cidBypass p.connection_id = false)
    (hg : lruGet s.connections p.connection_id = none)
    (ho : addr.outbound = false) :
    step s (.NetworkPacket addr (some p)) =
      ({ s with connections :=
          (insert_into_connections
            (insert_into_connections s.connections p.connection_id.reverse .None).1
            p.connection_id .Intercept).1 },
       (insert_into_connections s.connections p.connection_id.reverse .None).2
         ++ ((insert_into_connections
              (insert_into_connections s.connections p.connection_id.reverse .None).1
              p.connection_id .Intercept).2
             ++ [process_packet addr p .Intercept])) := by
  have hb' : ((p.src_ip.is_multicast || p.dst_ip.is_multicast)
      || (p.src_ip.is_loopback && p.dst_ip.is_loopback)) = false := hb
  simp [step, hb', hg, ho]

theorem step_sock_pid4 (s : LoopState) (ev : WinDivertEvent)
    (proto : Option TransportProtocol) (la ra : SocketAddr) :
    step s (.SocketEvent ev 4 proto la ra) = (s, []) := by
  simp [step]

theorem step_sock_noproto (s : LoopState) (ev : WinDivertEvent) (pid : PID)
    (la ra : SocketAddr) :
    step s (.SocketEvent ev pid none la ra) = (s, []) := by
  by_cases h : pid = 4 <;> simp [step, h]

theorem step_sock_mc (s : LoopState) (ev : WinDivertEvent) (pid : PID)
    (proto : TransportProtocol) (la ra : SocketAddr)
    (hmc : (la.ip.is_multicast || ra.ip.is_multicast) = true) :
    step s (.SocketEvent ev pid (some proto) la ra) = (s, []) := by
  by_cases h : pid = 4 <;> simp [step, h, hmc]

theorem step_sock_other (s : LoopState) (pid : PID)
    (proto : Option TransportProtocol) (la ra : SocketAddr) :
    step s (.SocketEvent .Other pid proto la ra) = (s, []) := by
  by_cases h : pid = 4
  · simp [step, h]
  · cases proto with
    | none => simp [step, h]
    | some pr =>
        by_cases hmc : (la.ip.is_multicast || ra.ip.is_multicast) = true
        · simp [step, h, hmc]
        · rw [Bool.not_eq_true] at hmc
          simp [step, h, hmc]

theorem step_close (s : LoopState) (pid : PID) (proto : TransportProtocol)
    (la ra : SocketAddr) (hpid : pid ≠ 4)
    (hmc : (la.ip.is_multicast || ra.ip.is_multicast) = false) :
    step s (.SocketEvent .SocketClose pid (some proto) la ra) =
      ({ s with connections :=
          lruModify s.connections ⟨proto, la, ra⟩ clearBuffer }, []) := by
  simp [step, hpid, hmc]

theorem step_close_out (s : LoopState) (pid : PID)
    (proto : Option TransportProtocol) (la ra : SocketAddr) :
    (step s (.SocketEvent .SocketClose pid proto la ra)).2 = [] := by
  by_cases h : pid = 4
  · simp [step, h]
  · cases proto with
    | none => simp [step, h]
    | some pr =>
        by_cases hmc : (la.ip.is_multicast || ra.ip.is_multicast) = true
        · simp [step, h, hmc]
        · rw [Bool.not_eq_true] at hmc
          simp [step, h, hmc]

theorem step_connect_entry (s : LoopState) (ev : WinDivertEvent) (pid : PID)
    (proto : TransportProtocol) (la ra : SocketAddr)
    (hev : ev = .SocketConnect ∨ ev = .SocketAccept) (hpid : pid ≠ 4)
    (hmc : (la.ip.is_multicast || ra.ip.is_multicast) = false)
    (hme : lruGet s.connections ⟨proto, la, ra⟩ = none
        ∨ ∃ ps, lruGet s.connections ⟨proto, la, ra⟩ = some (.Unknown ps)) :
    step s (.SocketEvent ev pid (some proto) la ra) =
      ({ s with connections :=
          (insert_into_connections
            (insert_into_connections s.connections
              (ConnectionId.mk proto la ra).reverse .None).1
            ⟨proto, la, ra⟩
            (if s.state.should_intercept pid then .Intercept else .None)).1 },
       (insert_into_connections s.connections
          (ConnectionId.mk proto la ra).reverse .None).2
         ++ (insert_into_connections
              (insert_into_connections s.connections
                (ConnectionId.mk proto la ra).reverse .None).1
              ⟨proto, la, ra⟩
              (if s.state.should_intercept pid then .Intercept else .None)).2) := by
  rcases hev with rfl | rfl <;>
    rcases hme with hg | ⟨ps, hg⟩ <;>
      simp [step, hpid, hmc, hg]

theorem step_connect_known (s : LoopState) (ev : WinDivertEvent) (pid : PID)
    (proto : TransportProtocol) (la ra : SocketAddr) (a : ConnectionAction)
    (hev : ev = .SocketConnect ∨ ev = .SocketAccept)
    (hg : lruGet s.connections ⟨proto, la, ra⟩ = some (.Known a)) :
    step s (.SocketEvent ev pid (some proto) la ra) = (s, []) := by
  rcases hev with rfl | rfl <;>
  · by_cases hpid : pid = 4
    · simp [step, hpid]
    · by_cases hmc : (la.ip.is_multicast || ra.ip.is_multicast) = true
      · simp [step, hpid, hmc]
      · rw [Bool.not_eq_true] at hmc
        simp [step, hpid, hmc, hg]

theorem step_inject_eq (s : LoopState) (buf : List Nat) :
    step s (.Inject buf) = (s, [.inject injectMeta buf]) := rfl

theorem step_include (s : LoopState) (a : List PID) :
    step s (.InterceptInclude a) = ({ s with state := .InterceptInclude a }, []) := rfl

theorem step_exclude (s : LoopState) (a : List PID) :
    step s (.InterceptExclude a) = ({ s with state := .InterceptExclude a }, []) := rfl

theorem run_cons (s : LoopState) (m : Message) (msgs : List Message) :
    run s (m :: msgs) =
      ((run (step s m).1 msgs).1, (step s m).2 ++ (run (step s m).1 msgs).2) := rfl

/-! ## C5: policy filter semantics and startup default -/

/-- C5: `should_intercept` is a pure function of policy and PID: under
`InterceptInclude S` it intercepts iff the PID is in `S`, under
`InterceptExclude S` iff the PID is not in `S`; the startup policy is
`InterceptInclude ∅`, so initially no PID is intercepted. -/
theorem C5_policy_filter :
    (∀ pids pid, (Config.InterceptInclude pids).should_intercept pid = true ↔ pid ∈ pids)
    ∧ (∀ pids pid, (Config.InterceptExclude pids).should_intercept pid = true ↔ pid ∉ pids)
    ∧ initState.state = Config.InterceptInclude []
    ∧ (∀ pid, initState.state.should_intercept pid = false) := by
  refine ⟨fun pids pid => ?_, fun pids pid => ?_, rfl, fun pid => rfl⟩
  · simp [Config.should_intercept]
  · simp [Config.should_intercept]

/-! ## C8: inject round-trip law -/

/-- C8: an `Inject(bytes)` event from the controller emits the payload
bytes unchanged on the Inject handle, with synthesised metadata whose
outbound flag is set and whose IP/TCP/UDP checksum-valid flags are
cleared. -/
theorem C8_inject_roundtrip (s : LoopState) (buf : List Nat) :
    step s (.Inject buf) = (s, [.inject injectMeta buf])
    ∧ injectMeta.outbound = true
    ∧ injectMeta.ip_checksum = false
    ∧ injectMeta.tcp_checksum = false
    ∧ injectMeta.udp_checksum = false :=
  ⟨rfl, rfl, rfl, rfl, rfl⟩

/-! ## C7: multicast / pure-loopback bypass -/

/-- C7: a successfully parsed packet that is multicast (either endpoint)
or pure-loopback (both endpoints) is re-injected unchanged exactly once
with its original metadata; the table and policy are untouched and no
IPC message is sent. -/
theorem C7_bypass (s : LoopState) (addr : WinDivertNetworkData)
    (p : InternetPacket)
    (h : ((p.src_ip.is_multicast || p.dst_ip.is_multicast)
          || (p.src_ip.is_loopback && p.dst_ip.is_loopback)) = true) :
    step s (.NetworkPacket addr (some p)) = (s, [.inject addr p.inner]) := by
  simp [step, h]

/-- Witness for C7 at the concrete multicast packet `exPktM`. -/
theorem C7_bypass_witness :
    ((exPktM.src_ip.is_multicast || exPktM.dst_ip.is_multicast)
      || (exPktM.src_ip.is_loopback && exPktM.dst_ip.is_loopback)) = true
    ∧ step initState (.NetworkPacket exMd (some exPktM))
        = (initState, [.inject exMd exPktM.inner]) :=
  ⟨by decide, C7_bypass initState exMd exPktM (by decide)⟩

end Redirector

namespace Redirector

/-! ## C9: Close-event semantics -/

/-- C9 as stated is refuted: a `SocketClose` event whose connection id
maps to a Pending entry, but whose process id is 4, is skipped by the
event filter, so the entry's packet buffer is NOT emptied. -/
theorem C9_counterexample :
    lruGet (run initState
        [ .NetworkPacket exMd (some exPkt),
          .SocketEvent .SocketClose 4 (some .Tcp) exSa1 exSa2 ]).1.connections exCid
      = some (.Unknown [(exMd, exPkt)]) := by decide

/-- C9 amended: for every `SocketClose` event that passes the event
filters (process id ≠ 4, decodable protocol, non-multicast endpoints),
if the connection id maps to a Pending entry its buffer is emptied while
the entry itself remains present and every other key is untouched; if
the entry is Known or the key is absent the state is left entirely
unchanged; and a Close event never produces any inject or IPC output. -/
theorem C9_close_semantics :
    (∀ (s : LoopState) (pid : PID) (proto : TransportProtocol) (la ra : SocketAddr)
        (ps : List (WinDivertNetworkData × InternetPacket)),
      pid ≠ 4 →
      (la.ip.is_multicast || ra.ip.is_multicast) = false →
      lruGet s.connections ⟨proto, la, ra⟩ = some (.Unknown ps) →
      lruGet (step s (.SocketEvent .SocketClose pid (some proto) la ra)).1.connections
          ⟨proto, la, ra⟩ = some (.Unknown [])
      ∧ (∀ k, k ≠ (⟨proto, la, ra⟩ : ConnectionId) →
          lruGet (step s (.SocketEvent .SocketClose pid (some proto) la ra)).1.connections k
            = lruGet s.connections k)
      ∧ (step s (.SocketEvent .SocketClose pid (some proto) la ra)).1.state = s.state)
    ∧ (∀ (s : LoopState) (pid : PID) (proto : TransportProtocol) (la ra : SocketAddr),
      pid ≠ 4 →
      (la.ip.is_multicast || ra.ip.is_multicast) = false →
      (∀ ps, lruGet s.connections ⟨proto, la, ra⟩ ≠ some (.Unknown ps)) →
      (step s (.SocketEvent .SocketClose pid (some proto) la ra)).1 = s)
    ∧ (∀ (s : LoopState) (pid : PID) (proto : Option TransportProtocol) (la ra : SocketAddr),
      (step s (.SocketEvent .SocketClose pid proto la ra)).2 = []) := by
  refine ⟨?_, ?_, ?_⟩
  · intro s pid proto la ra ps hpid hmc hg
    rw [step_close s pid proto la ra hpid hmc]
    refine ⟨?_, ?_, rfl⟩
    · show lruGet (lruModify s.connections ⟨proto, la, ra⟩ clearBuffer) ⟨proto, la, ra⟩
        = some (.Unknown [])
      rw [lruGet_modify, if_pos rfl, hg]
      rfl
    · intro k hk
      show lruGet (lruModify s.connections ⟨proto, la, ra⟩ clearBuffer) k
        = lruGet s.connections k
      rw [lruGet_modify, if_neg (fun hh => hk hh.symm)]
  · intro s pid proto la ra hpid hmc hne
    rw [step_close s pid proto la ra hpid hmc]
    have hfix : lruModify s.connections ⟨proto, la, ra⟩ clearBuffer = s.connections := by
      apply lruModify_fix
      intro v hv
      cases v with
      | Known a => rfl
      | Unknown ps => exact absurd hv (hne ps)
    show ({ s with connections := lruModify s.connections ⟨proto, la, ra⟩ clearBuffer } : LoopState) = s
    rw [hfix]
  · intro s pid proto la ra
    exact step_close_out s pid proto la ra

/-- Witness for the amended C9 at a concrete Pending state. -/
theorem C9_close_witness :
    (5 : PID) ≠ 4
    ∧ (exSa1.ip.is_multicast || exSa2.ip.is_multicast) = false
    ∧ lruGet exPendState.connections exCid = some (.Unknown [(exMd, exPkt)])
    ∧ lruGet (step exPendState
        (.SocketEvent .SocketClose 5 (some .Tcp) exSa1 exSa2)).1.connections exCid
        = some (.Unknown []) :=
  ⟨by decide, by decide, by decide,
   (C9_close_semantics.1 exPendState 5 .Tcp exSa1 exSa2 [(exMd, exPkt)]
     (by decide) (by decide) (by decide)).1⟩

/-! ## C2: return-path pass-through -/

theorem reverse_inj (c k : ConnectionId) (h : c.reverse = k.reverse) : c = k := by
  have h2 := congrArg ConnectionId.reverse h
  rwa [ConnectionId.reverse_reverse, ConnectionId.reverse_reverse] at h2

theorem revinv_modify (t : Table) (c : ConnectionId)
    (f : ConnectionState → ConnectionState)
    (hf1 : ∀ a, f (.Known a) = .Known a)
    (hf2 : ∀ ps, ∃ ps', f (.Unknown ps) = .Unknown ps')
    (h : RevInv t) : RevInv (lruModify t c f) := by
  intro k hk hkI
  rw [lruGet_modify] at hkI
  rw [lruGet_modify]
  by_cases hc : c = k
  · rw [if_pos hc] at hkI
    have hck : lruGet t k = some (.Known .Intercept) := by
      rcases hg : lruGet t c with _ | v
      · rw [hg] at hkI; exact absurd hkI (by simp)
      · rw [hg] at hkI
        simp only [Option.map_some'] at hkI
        cases v with
        | Known a =>
            rw [hf1 a] at hkI
            rw [← hc, hg, hkI]
        | Unknown ps =>
            obtain ⟨ps', hps⟩ := hf2 ps
            rw [hps] at hkI
            exact absurd hkI (by simp)
    have hrev := h k hk hck
    rw [if_neg (fun hh : c = k.reverse => hk (by rw [← hh, hc]))]
    exact hrev
  · rw [if_neg hc] at hkI
    have hrev := h k hk hkI
    by_cases hcr : c = k.reverse
    · rw [if_pos hcr, hcr, hrev]
      simp only [Option.map_some']
      rw [hf1]
    · rw [if_neg hcr]
      exact hrev

theorem revinv_insert_unknown (t : Table) (c : ConnectionId)
    (q : WinDivertNetworkData × InternetPacket)
    (hc : lruGet t c = none) (h : RevInv t) :
    RevInv (lruInsert t c (.Unknown [q])).1 := by
  intro k hk hkI
  rw [lruGet_insert] at hkI
  rw [lruGet_insert]
  by_cases h1 : c = k
  · rw [if_pos h1] at hkI
    exact absurd hkI (by simp)
  · rw [if_neg h1] at hkI
    have hrev := h k hk hkI
    by_cases h2 : c = k.reverse
    · rw [h2] at hc
      rw [hc] at hrev
      exact absurd hrev (by simp)
    · rw [if_neg h2]
      exact hrev

theorem revinv_double_insert (t : Table) (c : ConnectionId) (a : ConnectionAction)
    (hc : lruGet t c = none ∨ ∃ ps, lruGet t c = some (.Unknown ps))
    (h : RevInv t) :
    RevInv (insert_into_connections
      (insert_into_connections t c.reverse .None).1 c a).1 := by
  intro k hk hkI
  rw [lruGet_insert_into, lruGet_insert_into] at hkI
  rw [lruGet_insert_into, lruGet_insert_into]
  by_cases h1 : c = k
  · rw [if_neg (fun hh : c = k.reverse => hk (by rw [← hh, h1]))]
    rw [if_pos (by rw [h1] : c.reverse = k.reverse)]
  · rw [if_neg h1] at hkI
    by_cases h2 : c.reverse = k
    · rw [if_pos h2] at hkI
      exact absurd hkI (by simp)
    · rw [if_neg h2] at hkI
      have hrev := h k hk hkI
      by_cases h3 : c = k.reverse
      · rw [← h3] at hrev
        rcases hc with hc | ⟨ps, hc⟩ <;> rw [hc] at hrev <;> exact absurd hrev (by simp)
      · rw [if_neg h3]
        by_cases h4 : c.reverse = k.reverse
        · rw [if_pos h4]
        · rw [if_neg h4]
          exact hrev

theorem revinv_step (s : LoopState) (m : Message) (h : RevInv s.connections) :
    RevInv (step s m).1.connections := by
  cases m with
  | NetworkPacket addr parsed =>
      cases parsed with
      | none => rw [step_net_none]; exact h
      | some p =>
          by_cases hb : cidBypass p.connection_id = true
          · rw [step_net_bypass s addr p hb]; exact h
          · rw [Bool.not_eq_true] at hb
            rcases hg : lruGet s.connections p.connection_id with _ | v
            · by_cases ho : addr.outbound = true
              · rw [step_net_out s addr p hb hg ho]
                exact revinv_insert_unknown _ _ _ hg h
              · rw [Bool.not_eq_true] at ho
                rw [step_net_in s addr p hb hg ho]
                exact revinv_double_insert _ _ _ (Or.inl hg) h
            · cases v with
              | Known a => rw [step_net_known s addr p a hb hg]; exact h
              | Unknown ps =>
                  rw [step_net_unknown s addr p ps hb hg]
                  exact revinv_modify _ _ _ (fun a => rfl)
                    (fun ps' => ⟨ps' ++ [(addr, p)], rfl⟩) h
  | SocketEvent ev pid proto la ra =>
      by_cases hpid : pid = 4
      · subst hpid; rw [step_sock_pid4]; exact h
      · cases proto with
        | none => rw [step_sock_noproto]; exact h
        | some proto =>
            by_cases hmc : (la.ip.is_multicast || ra.ip.is_multicast) = true
            · rw [step_sock_mc s ev pid proto la ra hmc]; exact h
            · rw [Bool.not_eq_true] at hmc
              cases ev with
              | SocketConnect =>
                  rcases hg : lruGet s.connections ⟨proto, la, ra⟩ with _ | v
                  · rw [step_connect_entry s _ pid proto la ra (Or.inl rfl) hpid hmc (Or.inl hg)]
                    exact revinv_double_insert _ _ _ (Or.inl hg) h
                  · cases v with
                    | Known a =>
                        rw [step_connect_known s _ pid proto la ra a (Or.inl rfl) hg]
                        exact h
                    | Unknown ps =>
                        rw [step_connect_entry s _ pid proto la ra (Or.inl rfl) hpid hmc
                          (Or.inr ⟨ps, hg⟩)]
                        exact revinv_double_insert _ _ _ (Or.inr ⟨ps, hg⟩) h
              | SocketAccept =>
                  rcases hg : lruGet s.connections ⟨proto, la, ra⟩ with _ | v
                  · rw [step_connect_entry s _ pid proto la ra (Or.inr rfl) hpid hmc (Or.inl hg)]
                    exact revinv_double_insert _ _ _ (Or.inl hg) h
                  · cases v with
                    | Known a =>
                        rw [step_connect_known s _ pid proto la ra a (Or.inr rfl) hg]
                        exact h
                    | Unknown ps =>
                        rw [step_connect_entry s _ pid proto la ra (Or.inr rfl) hpid hmc
                          (Or.inr ⟨ps, hg⟩)]
                        exact revinv_double_insert _ _ _ (Or.inr ⟨ps, hg⟩) h
              | SocketClose =>
                  rw [step_close s pid proto la ra hpid hmc]
                  exact revinv_modify _ _ _ (fun a => rfl) (fun ps => ⟨[], rfl⟩) h
              | Other => rw [step_sock_other]; exact h
  | Inject buf => rw [step_inject_eq]; exact h
  | InterceptInclude a => rw [step_include]; exact h
  | InterceptExclude a => rw [step_exclude]; exact h

theorem revinv_run (msgs : List Message) :
    ∀ s : LoopState, RevInv s.connections → RevInv (run s msgs).1.connections := by
  induction msgs with
  | nil => intro s h; exact h
  | cons m rest ih =>
      intro s h
      rw [run_cons]
      exact ih _ (revinv_step s m h)

/-- C2 as stated is refuted: a Connect for a self-reversed five-tuple
(local = remote) produces a `Known Intercept` entry whose reversed key
(itself) does not hold `Known None`. -/
theorem C2_counterexample :
    exCidS.reverse = exCidS
    ∧ lruGet (run initState
        [ .InterceptInclude [1000],
          .SocketEvent .SocketConnect 1000 (some .Tcp) exSaS exSaS ]).1.connections exCidS
        = some (.Known .Intercept)
    ∧ lruGet (run initState
        [ .InterceptInclude [1000],
          .SocketEvent .SocketConnect 1000 (some .Tcp) exSaS exSaS ]).1.connections
        exCidS.reverse ≠ some (.Known .None) :=
  ⟨by decide, by decide, by decide⟩

/-- C2 amended: at every reachable state, every `Known Intercept` entry
whose key differs from its own reverse has `Known None` (Pass) at the
reversed key.  (For a self-reversed key — local = remote — the forward
insert overwrites the reverse insert, see the counterexample.) -/
theorem C2_return_path (msgs : List Message) (k : ConnectionId)
    (hk : k.reverse ≠ k)
    (h : lruGet (run initState msgs).1.connections k = some (.Known .Intercept)) :
    lruGet (run initState msgs).1.connections k.reverse = some (.Known .None) :=
  revinv_run msgs initState (fun _ _ hko => by simp [lruGet] at hko) k hk h

/-- Witness for the amended C2 on a concrete intercepted connection. -/
theorem C2_return_path_witness :
    exCid.reverse ≠ exCid
    ∧ lruGet (run initState
        [ .InterceptInclude [1000],
          .SocketEvent .SocketConnect 1000 (some .Tcp) exSa1 exSa2 ]).1.connections exCid
        = some (.Known .Intercept)
    ∧ lruGet (run initState
        [ .InterceptInclude [1000],
          .SocketEvent .SocketConnect 1000 (some .Tcp) exSa1 exSa2 ]).1.connections
        exCid.reverse = some (.Known .None) :=
  ⟨by decide, by decide,
   C2_return_path
     [ .InterceptInclude [1000],
       .SocketEvent .SocketConnect 1000 (some .Tcp) exSa1 exSa2 ]
     exCid (by decide) (by decide)⟩

/-! ## C10: unconditional reverse-key insertion -/

/-- C10 as stated is refuted: for a self-reversed five-tuple the forward
insert overwrites the reverse insert, so after a Connect with
`make_entry` the reversed connection id holds `Known Intercept`, not
`Known None`. -/
theorem C10_counterexample :
    lruGet (run initState [.InterceptInclude [1000]]).1.connections exCidS2 = none
    ∧ lruGet (run initState
        [ .InterceptInclude [1000],
          .SocketEvent .SocketConnect 1000 (some .Tcp) exSaS2 exSaS2 ]).1.connections
        exCidS2.reverse = some (.Known .Intercept)
    ∧ lruGet (run initState
        [ .InterceptInclude [1000],
          .SocketEvent .SocketConnect 1000 (some .Tcp) exSaS2 exSaS2 ]).1.connections
        exCidS2.reverse ≠ some (.Known .None) :=
  ⟨by decide, by decide, by decide⟩

/-- C10 amended: for a Connect/Accept that passes the event filters with
`make_entry`, provided the connection id differs from its reverse, the
entry at the reversed id afterwards is always `Known None` — silently
replacing even a previous `Known Intercept` — and if the reversed key
held a Pending entry, its buffer is drained first, with action `None`,
at the head of the event's outputs. -/
theorem C10_reverse_insert (s : LoopState) (ev : WinDivertEvent) (pid : PID)
    (proto : TransportProtocol) (la ra : SocketAddr)
    (hev : ev = .SocketConnect ∨ ev = .SocketAccept) (hpid : pid ≠ 4)
    (hmc : (la.ip.is_multicast || ra.ip.is_multicast) = false)
    (hme : lruGet s.connections ⟨proto, la, ra⟩ = none
        ∨ ∃ ps, lruGet s.connections ⟨proto, la, ra⟩ = some (.Unknown ps))
    (hrev : (ConnectionId.mk proto la ra).reverse ≠ ⟨proto, la, ra⟩) :
    lruGet (step s (.SocketEvent ev pid (some proto) la ra)).1.connections
        (ConnectionId.mk proto la ra).reverse = some (.Known .None)
    ∧ ∀ ps, lruGet s.connections (ConnectionId.mk proto la ra).reverse
          = some (.Unknown ps) →
        ∃ rest, (step s (.SocketEvent ev pid (some proto) la ra)).2
          = (ps.map fun q => process_packet q.1 q.2 .None) ++ rest := by
  rw [step_connect_entry s ev pid proto la ra hev hpid hmc hme]
  constructor
  · show lruGet (insert_into_connections
        (insert_into_connections s.connections
          (ConnectionId.mk proto la ra).reverse .None).1
        ⟨proto, la, ra⟩
        (if s.state.should_intercept pid then .Intercept else .None)).1
        (ConnectionId.mk proto la ra).reverse = some (.Known .None)
    rw [lruGet_insert_into, if_neg (fun hh => hrev hh.symm)]
    rw [lruGet_insert_into, if_pos rfl]
  · intro ps hps
    refine ⟨(insert_into_connections
        (insert_into_connections s.connections
          (ConnectionId.mk proto la ra).reverse .None).1
        ⟨proto, la, ra⟩
        (if s.state.should_intercept pid then .Intercept else .None)).2, ?_⟩
    show (insert_into_connections s.connections
          (ConnectionId.mk proto la ra).reverse .None).2 ++ _ = _
    rw [insert_into_drain _ _ _ _ hps]

/-- Witness for the amended C10 at a fresh Connect. -/
theorem C10_reverse_insert_witness :
    (ConnectionId.mk .Tcp exSa1 exSa2).reverse ≠ (⟨.Tcp, exSa1, exSa2⟩ : ConnectionId)
    ∧ lruGet (step initState
        (.SocketEvent .SocketConnect 1000 (some .Tcp) exSa1 exSa2)).1.connections
        (ConnectionId.mk .Tcp exSa1 exSa2).reverse = some (.Known .None) :=
  ⟨by decide,
   (C10_reverse_insert initState .SocketConnect 1000 .Tcp exSa1 exSa2
     (Or.inl rfl) (by decide) (by decide) (Or.inl (by decide)) (by decide)).1⟩

end Redirector

namespace Redirector

/-! ## C4: Known is terminal -/

theorem known_step (s : LoopState) (m : Message) (k : ConnectionId)
    (a : ConnectionAction) (h : lruGet s.connections k = some (.Known a)) :
    ∃ a', lruGet (step s m).1.connections k = some (.Known a') := by
  cases m with
  | NetworkPacket addr parsed =>
      cases parsed with
      | none => exact ⟨a, h⟩
      | some p =>
          by_cases hb : cidBypass p.connection_id = true
          · rw [step_net_bypass s addr p hb]; exact ⟨a, h⟩
          · rw [Bool.not_eq_true] at hb
            rcases hg : lruGet s.connections p.connection_id with _ | v
            · by_cases ho : addr.outbound = true
              · rw [step_net_out s addr p hb hg ho]
                refine ⟨a, ?_⟩
                show lruGet (lruInsert s.connections p.connection_id
                  (.Unknown [(addr, p)])).1 k = _
                rw [lruGet_insert,
                  if_neg (fun hh : p.connection_id = k => by rw [hh] at hg; rw [hg] at h; cases h)]
                exact h
              · rw [Bool.not_eq_true] at ho
                rw [step_net_in s addr p hb hg ho]
                show ∃ a', lruGet (insert_into_connections
                  (insert_into_connections s.connections p.connection_id.reverse .None).1
                  p.connection_id .Intercept).1 k = some (.Known a')
                rw [lruGet_insert_into, lruGet_insert_into]
                by_cases h1 : p.connection_id = k
                · exact ⟨.Intercept, by rw [if_pos h1]⟩
                · rw [if_neg h1]
                  by_cases h2 : p.connection_id.reverse = k
                  · exact ⟨.None, by rw [if_pos h2]⟩
                  · rw [if_neg h2]; exact ⟨a, h⟩
            · cases v with
              | Known b => rw [step_net_known s addr p b hb hg]; exact ⟨a, h⟩
              | Unknown ps =>
                  rw [step_net_unknown s addr p ps hb hg]
                  refine ⟨a, ?_⟩
                  show lruGet (lruModify s.connections p.connection_id
                    (pushPacket addr p)) k = _
                  rw [lruGet_modify]
                  by_cases h1 : p.connection_id = k
                  · rw [h1] at hg; rw [hg] at h; cases h
                  · rw [if_neg h1]; exact h
  | SocketEvent ev pid proto la ra =>
      by_cases hpid : pid = 4
      · subst hpid; rw [step_sock_pid4]; exact ⟨a, h⟩
      · cases proto with
        | none => rw [step_sock_noproto]; exact ⟨a, h⟩
        | some proto =>
            by_cases hmc : (la.ip.is_multicast || ra.ip.is_multicast) = true
            · rw [step_sock_mc s ev pid proto la ra hmc]; exact ⟨a, h⟩
            · rw [Bool.not_eq_true] at hmc
              have hconn : ∀ hev : ev = .SocketConnect ∨ ev = .SocketAccept,
                  ∃ a', lruGet (step s (.SocketEvent ev pid (some proto) la ra)).1.connections k
                    = some (.Known a') := by
                intro hev
                rcases hg : lruGet s.connections ⟨proto, la, ra⟩ with _ | v
                · rw [step_connect_entry s ev pid proto la ra hev hpid hmc (Or.inl hg)]
                  show ∃ a', lruGet (insert_into_connections
                    (insert_into_connections s.connections
                      (ConnectionId.mk proto la ra).reverse .None).1
                    ⟨proto, la, ra⟩ _).1 k = some (.Known a')
                  rw [lruGet_insert_into, lruGet_insert_into]
                  by_cases h1 : (⟨proto, la, ra⟩ : ConnectionId) = k
                  · exact ⟨_, by rw [if_pos h1]⟩
                  · rw [if_neg h1]
                    by_cases h2 : (ConnectionId.mk proto la ra).reverse = k
                    · exact ⟨.None, by rw [if_pos h2]⟩
                    · rw [if_neg h2]; exact ⟨a, h⟩
                · cases v with
                  | Known b =>
                      rw [step_connect_known s ev pid proto la ra b hev hg]
                      exact ⟨a, h⟩
                  | Unknown ps =>
                      rw [step_connect_entry s ev pid proto la ra hev hpid hmc (Or.inr ⟨ps, hg⟩)]
                      show ∃ a', lruGet (insert_into_connections
                        (insert_into_connections s.connections
                          (ConnectionId.mk proto la ra).reverse .None).1
                        ⟨proto, la, ra⟩ _).1 k = some (.Known a')
                      rw [lruGet_insert_into, lruGet_insert_into]
                      by_cases h1 : (⟨proto, la, ra⟩ : ConnectionId) = k
                      · exact ⟨_, by rw [if_pos h1]⟩
                      · rw [if_neg h1]
                        by_cases h2 : (ConnectionId.mk proto la ra).reverse = k
                        · exact ⟨.None, by rw [if_pos h2]⟩
                        · rw [if_neg h2]; exact ⟨a, h⟩
              cases ev with
              | SocketConnect => exact hconn (Or.inl rfl)
              | SocketAccept => exact hconn (Or.inr rfl)
              | SocketClose =>
                  rw [step_close s pid proto la ra hpid hmc]
                  refine ⟨a, ?_⟩
                  show lruGet (lruModify s.connections ⟨proto, la, ra⟩ clearBuffer) k = _
                  rw [lruGet_modify]
                  by_cases h1 : (⟨proto, la, ra⟩ : ConnectionId) = k
                  · rw [if_pos h1, h1, h]; rfl
                  · rw [if_neg h1]; exact h
              | Other => rw [step_sock_other]; exact ⟨a, h⟩
  | Inject buf => exact ⟨a, h⟩
  | InterceptInclude pids => exact ⟨a, h⟩
  | InterceptExclude pids => exact ⟨a, h⟩

theorem isKnownAt_step (s : LoopState) (m : Message) (k : ConnectionId)
    (h : isKnownAt s.connections k = true) :
    isKnownAt (step s m).1.connections k = true := by
  unfold isKnownAt at h
  rcases hg : lruGet s.connections k with _ | v
  · rw [hg] at h; simp at h
  · cases v with
    | Known a =>
        obtain ⟨a', ha⟩ := known_step s m k a hg
        unfold isKnownAt
        rw [ha]
    | Unknown ps => rw [hg] at h; simp at h

theorem known_not_unknown (t : Table) (k : ConnectionId)
    (h : isKnownAt t k = true) : isUnknownAt t k = false := by
  unfold isKnownAt at h
  unfold isUnknownAt
  rcases hg : lruGet t k with _ | v
  · rfl
  · cases v with
    | Known a => rfl
    | Unknown ps => rw [hg] at h; simp at h

theorem resCount_of_known (msgs : List Message) :
    ∀ (s : LoopState) (k : ConnectionId),
      isKnownAt s.connections k = true → resCount s msgs k = 0 := by
  induction msgs with
  | nil => intro s k _; rfl
  | cons m rest ih =>
      intro s k h
      simp only [resCount]
      rw [if_neg (by rw [known_not_unknown _ _ h]; simp)]
      rw [Nat.zero_add]
      exact ih _ k (isKnownAt_step s m k h)

theorem resCount_le_one (msgs : List Message) :
    ∀ (s : LoopState) (k : ConnectionId), resCount s msgs k ≤ 1 := by
  induction msgs with
  | nil => intro s k; simp [resCount]
  | cons m rest ih =>
      intro s k
      simp only [resCount]
      by_cases hb : (isUnknownAt s.connections k
          && isKnownAt (step s m).1.connections k) = true
      · rw [if_pos hb]
        rw [Bool.and_eq_true] at hb
        rw [resCount_of_known rest (step s m).1 k hb.2]
      · rw [if_neg hb]
        simpa using ih (step s m).1 k

/-- C4: Known is terminal within TTL: an entry that is `Known` stays
`Known` across every event; a Connect or Accept socket event for a key
already present as Known makes no change at all (no table change, no
output); and along any trace, any key undergoes at most one
Pending-to-Known transition. -/
theorem C4_known_terminal :
    (∀ (s : LoopState) (m : Message) (k : ConnectionId) (a : ConnectionAction),
        lruGet s.connections k = some (.Known a) →
        ∃ a', lruGet (step s m).1.connections k = some (.Known a'))
    ∧ (∀ (s : LoopState) (ev : WinDivertEvent) (pid : PID)
        (proto : TransportProtocol) (la ra : SocketAddr) (a : ConnectionAction),
        (ev = .SocketConnect ∨ ev = .SocketAccept) →
        lruGet s.connections ⟨proto, la, ra⟩ = some (.Known a) →
        step s (.SocketEvent ev pid (some proto) la ra) = (s, []))
    ∧ (∀ (s : LoopState) (msgs : List Message) (k : ConnectionId),
        resCount s msgs k ≤ 1) :=
  ⟨known_step,
   fun s ev pid proto la ra a hev hg => step_connect_known s ev pid proto la ra a hev hg,
   fun s msgs k => resCount_le_one msgs s k⟩

/-- Witness for C4: a Connect for a key already Known changes nothing. -/
theorem C4_known_terminal_witness :
    lruGet exKnownState.connections exCid = some (.Known .Intercept)
    ∧ step exKnownState (.SocketEvent .SocketConnect 1000 (some .Tcp) exSa1 exSa2)
        = (exKnownState, []) :=
  ⟨by decide,
   C4_known_terminal.2.1 exKnownState .SocketConnect 1000 .Tcp exSa1 exSa2 .Intercept
     (Or.inl rfl) (by decide)⟩

/-! ## C6: policy update semantics -/

/-- C6: a policy event replaces the whole policy value with one built
from the received PID list, leaves every connection-table entry
unchanged and produces no output; and a Pending entry resolved by a
Connect after the update is classified under the policy in force at
Connect-processing time. -/
theorem C6_policy_update :
    (∀ (s : LoopState) (a : List PID),
        (step s (.InterceptInclude a)).1.connections = s.connections
        ∧ (step s (.InterceptInclude a)).1.state = .InterceptInclude a
        ∧ (step s (.InterceptInclude a)).2 = [])
    ∧ (∀ (s : LoopState) (a : List PID),
        (step s (.InterceptExclude a)).1.connections = s.connections
        ∧ (step s (.InterceptExclude a)).1.state = .InterceptExclude a
        ∧ (step s (.InterceptExclude a)).2 = [])
    ∧ (∀ (s : LoopState) (pids : List PID) (pid : PID) (proto : TransportProtocol)
        (la ra : SocketAddr) (ps : List (WinDivertNetworkData × InternetPacket)),
        pid ≠ 4 →
        (la.ip.is_multicast || ra.ip.is_multicast) = false →
        lruGet s.connections ⟨proto, la, ra⟩ = some (.Unknown ps) →
        lruGet (step (step s (.InterceptInclude pids)).1
            (.SocketEvent .SocketConnect pid (some proto) la ra)).1.connections
            ⟨proto, la, ra⟩
          = some (.Known (if pids.contains pid then .Intercept else .None))) := by
  refine ⟨fun s a => ⟨rfl, rfl, rfl⟩, fun s a => ⟨rfl, rfl, rfl⟩, ?_⟩
  intro s pids pid proto la ra ps hpid hmc hg
  show lruGet (step (⟨s.connections, .InterceptInclude pids⟩ : LoopState)
      (.SocketEvent .SocketConnect pid (some proto) la ra)).1.connections
      ⟨proto, la, ra⟩ = _
  rw [step_connect_entry (⟨s.connections, .InterceptInclude pids⟩ : LoopState)
    .SocketConnect pid proto la ra (Or.inl rfl) hpid hmc (Or.inr ⟨ps, hg⟩)]
  show lruGet (insert_into_connections
      (insert_into_connections _ (ConnectionId.mk proto la ra).reverse .None).1
      ⟨proto, la, ra⟩ _).1 ⟨proto, la, ra⟩ = _
  rw [lruGet_insert_into, if_pos rfl]
  rfl

/-- Witness for C6 resolving a Pending entry after a policy update. -/
theorem C6_policy_update_witness :
    (1000 : PID) ≠ 4
    ∧ (exSa1.ip.is_multicast || exSa2.ip.is_multicast) = false
    ∧ lruGet exPendState.connections exCid = some (.Unknown [(exMd, exPkt)])
    ∧ lruGet (step (step exPendState (.InterceptInclude [1000])).1
        (.SocketEvent .SocketConnect 1000 (some .Tcp) exSa1 exSa2)).1.connections exCid
        = some (.Known (if ([1000] : List PID).contains 1000 then .Intercept else .None)) :=
  ⟨by decide, by decide, by decide,
   C6_policy_update.2.2 exPendState [1000] 1000 .Tcp exSa1 exSa2 [(exMd, exPkt)]
     (by decide) (by decide) (by decide)⟩

end Redirector

namespace Redirector

/-! ## C1: packet conservation -/

theorem outBytes_process (addr : WinDivertNetworkData) (p : InternetPacket)
    (a : ConnectionAction) : outBytes (process_packet addr p a) = p.inner := by
  cases a <;> rfl

theorem outsBytes_nil : outsBytes [] = 0 := rfl

theorem outsBytes_single (o : Output) : outsBytes [o] = {outBytes o} := by
  simp [outsBytes]

theorem outsBytes_append (xs ys : List Output) :
    outsBytes (xs ++ ys) = outsBytes xs + outsBytes ys := by
  unfold outsBytes
  rw [List.map_append]
  exact (Multiset.coe_add _ _).symm

theorem drainBytes (ps : List (WinDivertNetworkData × InternetPacket))
    (a : ConnectionAction) :
    outsBytes (ps.map fun q => process_packet q.1 q.2 a)
      = ((ps.map pairBytes : List (List Nat)) : Multiset (List Nat)) := by
  unfold outsBytes
  rw [List.map_map]
  have hcf : (outBytes ∘ fun q : WinDivertNetworkData × InternetPacket =>
      process_packet q.1 q.2 a) = pairBytes :=
    funext fun q => outBytes_process q.1 q.2 a
  rw [hcf]

theorem stBuf_push (ps : List (WinDivertNetworkData × InternetPacket))
    (q : WinDivertNetworkData × InternetPacket) :
    stBuf (.Unknown (ps ++ [q])) = stBuf (.Unknown ps) + {pairBytes q} := by
  simp only [stBuf, List.map_append, List.map_cons, List.map_nil]
  rw [← Multiset.coe_singleton]
  exact (Multiset.coe_add _ _).symm

theorem tblBuf_modify (t : Table) (k : ConnectionId)
    (f : ConnectionState → ConnectionState) :
    tblBuf (lruModify t k f) + optBuf (lruGet t k)
      = tblBuf t + optBuf ((lruGet t k).map f) := by
  induction t with
  | nil => simp [lruModify, lruGet, optBuf, tblBuf]
  | cons e rest ih =>
      simp only [lruModify, lruGet]
      by_cases h1 : e.1 = k
      · rw [if_pos h1, if_pos h1]
        simp only [tblBuf, Option.map_some', optBuf]
        abel
      · rw [if_neg h1, if_neg h1]
        simp only [tblBuf]
        rw [add_assoc, add_assoc, ih]

theorem tblBuf_insert (t : Table) (k : ConnectionId) (v : ConnectionState) :
    tblBuf (lruInsert t k v).1 + optBuf (lruGet t k) = tblBuf t + stBuf v := by
  induction t with
  | nil => simp [lruInsert, lruGet, tblBuf, optBuf]
  | cons e rest ih =>
      simp only [lruInsert, lruGet]
      by_cases h1 : e.1 = k
      · rw [if_pos h1, if_pos h1]
        simp only [tblBuf, optBuf]
        abel
      · rw [if_neg h1, if_neg h1]
        simp only [tblBuf]
        rw [add_assoc, add_assoc, ih]

theorem insert_into_acct (t : Table) (key : ConnectionId) (a : ConnectionAction) :
    tblBuf (insert_into_connections t key a).1
      + outsBytes (insert_into_connections t key a).2 = tblBuf t := by
  simp only [insert_into_connections]
  rw [lruInsert_snd]
  have hins := tblBuf_insert t key (.Known a)
  rcases hg : lruGet t key with _ | v
  · rw [hg] at hins
    simp only [optBuf, stBuf] at hins
    simpa [outsBytes] using hins
  · cases v with
    | Known b =>
        rw [hg] at hins
        simp only [optBuf, stBuf] at hins
        simpa [outsBytes] using hins
    | Unknown ps =>
        rw [hg] at hins
        simp only [optBuf, stBuf] at hins
        show tblBuf (lruInsert t key (.Known a)).1
            + outsBytes (ps.map fun q => process_packet q.1 q.2 a) = tblBuf t
        rw [drainBytes]
        simpa using hins

theorem step_acct (s : LoopState) (m : Message) :
    tblBuf s.connections + msgBytes m
      = outsBytes (step s m).2 + tblBuf (step s m).1.connections
        + clearedStep s m := by
  cases m with
  | NetworkPacket addr parsed =>
      cases parsed with
      | none => simp [step_net_none, msgBytes, clearedStep, outsBytes]
      | some p =>
          by_cases hb : cidBypass p.connection_id = true
          · rw [step_net_bypass s addr p hb]
            show tblBuf s.connections + {p.inner}
              = outsBytes [.inject addr p.inner] + tblBuf s.connections + 0
            rw [outsBytes_single]
            show _ = ({p.inner} : Multiset (List Nat)) + _ + 0
            abel
          · rw [Bool.not_eq_true] at hb
            rcases hg : lruGet s.connections p.connection_id with _ | v
            · by_cases ho : addr.outbound = true
              · rw [step_net_out s addr p hb hg ho]
                show tblBuf s.connections + {p.inner}
                  = outsBytes []
                    + tblBuf (lruInsert s.connections p.connection_id
                        (.Unknown [(addr, p)])).1 + 0
                rw [outsBytes_nil]
                have hins := tblBuf_insert s.connections p.connection_id
                  (.Unknown [(addr, p)])
                rw [hg] at hins
                simp only [optBuf, stBuf, List.map_cons, List.map_nil] at hins
                rw [add_zero] at hins
                rw [hins]
                show _ = 0 + (_ + ({pairBytes (addr, p)} : Multiset (List Nat))) + 0
                show tblBuf s.connections + {p.inner}
                  = 0 + (tblBuf s.connections + {p.inner}) + 0
                abel
              · rw [Bool.not_eq_true] at ho
                rw [step_net_in s addr p hb hg ho]
                have e1 := insert_into_acct s.connections p.connection_id.reverse .None
                have e2 := insert_into_acct
                  (insert_into_connections s.connections p.connection_id.reverse .None).1
                  p.connection_id .Intercept
                show tblBuf s.connections + {p.inner} = _
                rw [outsBytes_append, outsBytes_append, outsBytes_single,
                  outBytes_process]
                rw [← e1, ← e2]
                show _ = _ + (_ + ({p.inner} : Multiset (List Nat))) + _ + 0
                abel
            · cases v with
              | Known a =>
                  rw [step_net_known s addr p a hb hg]
                  show tblBuf s.connections + {p.inner}
                    = outsBytes [process_packet addr p a] + tblBuf s.connections + 0
                  rw [outsBytes_single, outBytes_process]
                  show _ = ({p.inner} : Multiset (List Nat)) + _ + 0
                  abel
              | Unknown ps =>
                  rw [step_net_unknown s addr p ps hb hg]
                  have hmod := tblBuf_modify s.connections p.connection_id
                    (pushPacket addr p)
                  rw [hg] at hmod
                  simp only [optBuf, Option.map_some'] at hmod
                  have hpush : pushPacket addr p (.Unknown ps)
                      = .Unknown (ps ++ [(addr, p)]) := rfl
                  rw [hpush, stBuf_push] at hmod
                  show tblBuf s.connections + {p.inner}
                    = outsBytes []
                      + tblBuf (lruModify s.connections p.connection_id
                          (pushPacket addr p)) + 0
                  rw [outsBytes_nil]
                  have := add_right_cancel
                    (a := tblBuf (lruModify s.connections p.connection_id
                      (pushPacket addr p)))
                    (b := stBuf (.Unknown ps))
                    (c := tblBuf s.connections + ({pairBytes (addr, p)} : Multiset (List Nat)))
                    (by rw [hmod]; abel)
                  rw [this]
                  show _ = 0 + (_ + ({p.inner} : Multiset (List Nat))) + 0
                  abel
  | SocketEvent ev pid proto la ra =>
      by_cases hpid : pid = 4
      · subst hpid
        rw [step_sock_pid4]
        show tblBuf s.connections + 0 = outsBytes [] + tblBuf s.connections
          + clearedStep s (.SocketEvent ev 4 proto la ra)
        have hcl : clearedStep s (.SocketEvent ev 4 proto la ra) = 0 := by
          cases ev <;> simp [clearedStep]
        rw [hcl, outsBytes_nil]
        abel
      · cases proto with
        | none =>
            rw [step_sock_noproto]
            have hcl : clearedStep s (.SocketEvent ev pid none la ra) = 0 := by
              cases ev <;> simp [clearedStep]
            rw [hcl]
            show tblBuf s.connections + 0 = outsBytes [] + tblBuf s.connections + 0
            rw [outsBytes_nil]
            abel
        | some proto =>
            by_cases hmc : (la.ip.is_multicast || ra.ip.is_multicast) = true
            · rw [step_sock_mc s ev pid proto la ra hmc]
              have hcl : clearedStep s (.SocketEvent ev pid (some proto) la ra) = 0 := by
                cases ev <;> simp [clearedStep, hpid, hmc]
              rw [hcl]
              show tblBuf s.connections + 0 = outsBytes [] + tblBuf s.connections + 0
              rw [outsBytes_nil]
              abel
            · rw [Bool.not_eq_true] at hmc
              have hconn : ∀ ev', ev' = WinDivertEvent.SocketConnect
                    ∨ ev' = WinDivertEvent.SocketAccept →
                  tblBuf s.connections + msgBytes (.SocketEvent ev' pid (some proto) la ra)
                    = outsBytes (step s (.SocketEvent ev' pid (some proto) la ra)).2
                      + tblBuf (step s (.SocketEvent ev' pid (some proto) la ra)).1.connections
                      + clearedStep s (.SocketEvent ev' pid (some proto) la ra) := by
                intro ev' hev
                have hcl : clearedStep s (.SocketEvent ev' pid (some proto) la ra) = 0 := by
                  rcases hev with rfl | rfl <;> rfl
                rw [hcl]
                rcases hme : lruGet s.connections ⟨proto, la, ra⟩ with _ | v
                · rw [step_connect_entry s ev' pid proto la ra hev hpid hmc (Or.inl hme)]
                  have e1 := insert_into_acct s.connections
                    (ConnectionId.mk proto la ra).reverse .None
                  have e2 := insert_into_acct
                    (insert_into_connections s.connections
                      (ConnectionId.mk proto la ra).reverse .None).1
                    ⟨proto, la, ra⟩
                    (if s.state.should_intercept pid then .Intercept else .None)
                  show tblBuf s.connections + 0 = _
                  rw [outsBytes_append, ← e1, ← e2]
                  abel
                · cases v with
                  | Known b =>
                      rw [step_connect_known s ev' pid proto la ra b hev hme]
                      show tblBuf s.connections + 0
                        = outsBytes [] + tblBuf s.connections + 0
                      rw [outsBytes_nil]
                      abel
                  | Unknown ps =>
                      rw [step_connect_entry s ev' pid proto la ra hev hpid hmc
                        (Or.inr ⟨ps, hme⟩)]
                      have e1 := insert_into_acct s.connections
                        (ConnectionId.mk proto la ra).reverse .None
                      have e2 := insert_into_acct
                        (insert_into_connections s.connections
                          (ConnectionId.mk proto la ra).reverse .None).1
                        ⟨proto, la, ra⟩
                        (if s.state.should_intercept pid then .Intercept else .None)
                      show tblBuf s.connections + 0 = _
                      rw [outsBytes_append, ← e1, ← e2]
                      abel
              cases ev with
              | SocketConnect => exact hconn _ (Or.inl rfl)
              | SocketAccept => exact hconn _ (Or.inr rfl)
              | SocketClose =>
                  rw [step_close s pid proto la ra hpid hmc]
                  have hcl : clearedStep s (.SocketEvent .SocketClose pid (some proto) la ra)
                      = optBuf (lruGet s.connections ⟨proto, la, ra⟩) := by
                    simp only [clearedStep]
                    rw [if_neg hpid, hmc]
                    rcases hg : lruGet s.connections ⟨proto, la, ra⟩ with _ | v
                    · rfl
                    · cases v <;> rfl
                  rw [hcl]
                  have hmod := tblBuf_modify s.connections ⟨proto, la, ra⟩ clearBuffer
                  show tblBuf s.connections + 0
                    = outsBytes []
                      + tblBuf (lruModify s.connections ⟨proto, la, ra⟩ clearBuffer)
                      + optBuf (lruGet s.connections ⟨proto, la, ra⟩)
                  rw [outsBytes_nil]
                  rcases hg : lruGet s.connections ⟨proto, la, ra⟩ with _ | v
                  · rw [hg] at hmod
                    simp only [Option.map_none', optBuf] at hmod
                    rw [add_zero, add_zero] at hmod
                    rw [hmod]
                    show _ + 0 = 0 + _ + (0 : Multiset (List Nat))
                    abel
                  · cases v with
                    | Known b =>
                        rw [hg] at hmod
                        simp only [Option.map_some', optBuf] at hmod
                        have : clearBuffer (.Known b) = .Known b := rfl
                        rw [this] at hmod
                        simp only [stBuf] at hmod
                        rw [add_zero, add_zero] at hmod
                        rw [hmod]
                        show _ + 0 = 0 + _ + (0 : Multiset (List Nat))
                        abel
                    | Unknown ps =>
                        rw [hg] at hmod
                        simp only [Option.map_some', optBuf] at hmod
                        have : clearBuffer (.Unknown ps) = .Unknown [] := rfl
                        rw [this] at hmod
                        have hz : stBuf (ConnectionState.Unknown []) = 0 := rfl
                        rw [hz, add_zero] at hmod
                        rw [← hmod]
                        show _ + 0 = 0 + _ + stBuf (ConnectionState.Unknown ps)
                        abel
              | Other =>
                  rw [step_sock_other]
                  show tblBuf s.connections + 0 = outsBytes [] + tblBuf s.connections + 0
                  rw [outsBytes_nil]
                  abel
  | Inject buf =>
      rw [step_inject_eq]
      show tblBuf s.connections + {buf}
        = outsBytes [.inject injectMeta buf] + tblBuf s.connections + 0
      rw [outsBytes_single]
      show _ = ({buf} : Multiset (List Nat)) + _ + 0
      abel
  | InterceptInclude a =>
      rw [step_include]
      show tblBuf s.connections + 0 = outsBytes [] + tblBuf s.connections + 0
      rw [outsBytes_nil]
      abel
  | InterceptExclude a =>
      rw [step_exclude]
      show tblBuf s.connections + 0 = outsBytes [] + tblBuf s.connections + 0
      rw [outsBytes_nil]
      abel

/-- C1: packet conservation.  Over any message trace, the payload bytes
brought in by successfully parsed network packets and controller inject
requests, together with the bytes already buffered, are accounted for
exactly once — as a multiset — by the emitted effects (re-injections and
IPC forwards), the bytes still buffered in Pending entries of the final
state (reaped by TTL expiry), and the bytes dropped by Close-time buffer
clears: nothing is duplicated and nothing is lost. -/
theorem C1_packet_conservation (msgs : List Message) : ∀ s : LoopState,
    tblBuf s.connections + traceBytes msgs
      = outsBytes (run s msgs).2 + tblBuf (run s msgs).1.connections
        + clearedRun s msgs := by
  induction msgs with
  | nil =>
      intro s
      show tblBuf s.connections + 0 = outsBytes [] + tblBuf s.connections + 0
      rw [outsBytes_nil]
      abel
  | cons m rest ih =>
      intro s
      rw [run_cons]
      show tblBuf s.connections + (msgBytes m + traceBytes rest)
        = outsBytes ((step s m).2 ++ (run (step s m).1 rest).2)
          + tblBuf (run (step s m).1 rest).1.connections
          + (clearedStep s m + clearedRun (step s m).1 rest)
      rw [outsBytes_append]
      calc tblBuf s.connections + (msgBytes m + traceBytes rest)
          = (tblBuf s.connections + msgBytes m) + traceBytes rest := by abel
        _ = (outsBytes (step s m).2 + tblBuf (step s m).1.connections
              + clearedStep s m) + traceBytes rest := by rw [step_acct]
        _ = outsBytes (step s m).2 + clearedStep s m
              + (tblBuf (step s m).1.connections + traceBytes rest) := by abel
        _ = outsBytes (step s m).2 + clearedStep s m
              + (outsBytes (run (step s m).1 rest).2
                + tblBuf (run (step s m).1 rest).1.connections
                + clearedRun (step s m).1 rest) := by rw [ih]
        _ = _ := by abel

end Redirector

namespace Redirector

/-! ## Branch-reduction lemmas for `stepT`, and erasure agreement -/

theorem eraseT_process (addr : WinDivertNetworkData) (p : InternetPacket)
    (a : ConnectionAction) :
    eraseT (process_packetT addr p a) = process_packet addr p a := by
  cases a <;> rfl

theorem iicT_fst (t : Table) (k : ConnectionId) (a : ConnectionAction) :
    (insert_into_connectionsT t k a).1 = (insert_into_connections t k a).1 := by
  simp only [insert_into_connectionsT, insert_into_connections]
  rcases h : (lruInsert t k (ConnectionState.Known a)).2 with _ | v
  · rfl
  · cases v <;> rfl

theorem iicT_snd (t : Table) (k : ConnectionId) (a : ConnectionAction) :
    (insert_into_connectionsT t k a).2.map eraseT
      = (insert_into_connections t k a).2 := by
  simp only [insert_into_connectionsT, insert_into_connections]
  rcases h : (lruInsert t k (ConnectionState.Known a)).2 with _ | v
  · rfl
  · cases v with
    | Known b => rfl
    | Unknown ps =>
        simp only [List.map_map]
        have hcf : (eraseT ∘ fun q : WinDivertNetworkData × InternetPacket =>
            process_packetT q.1 q.2 a)
            = fun q : WinDivertNetworkData × InternetPacket =>
                process_packet q.1 q.2 a :=
          funext fun q => eraseT_process q.1 q.2 a
        rw [hcf]

theorem stepT_net_none (s : LoopState) (addr : WinDivertNetworkData) :
    stepT s (.NetworkPacket addr none) = (s, []) := rfl

theorem stepT_net_bypass (s : LoopState) (addr : WinDivertNetworkData)
    (p : InternetPacket) (h : cidBypass p.connection_id = true) :
    stepT s (.NetworkPacket addr (some p)) = (s, [.injectPkt addr p]) := by
  have h' : ((p.src_ip.is_multicast || p.dst_ip.is_multicast)
      || (p.src_ip.is_loopback && p.dst_ip.is_loopback)) = true := h
  simp [stepT, h']

theorem stepT_net_known (s : LoopState) (addr : WinDivertNetworkData)
    (p : InternetPacket) (a : ConnectionAction)
    (hb : cidBypass p.connection_id = false)
    (hg : lruGet s.connections p.connection_id = some (.Known a)) :
    stepT s (.NetworkPacket addr (some p)) = (s, [process_packetT addr p a]) := by
  have hb' : ((p.src_ip.is_multicast || p.dst_ip.is_multicast)
      || (p.src_ip.is_loopback && p.dst_ip.is_loopback)) = false := hb
  simp [stepT, hb', hg]

theorem stepT_net_unknown (s : LoopState) (addr : WinDivertNetworkData)
    (p : InternetPacket) (ps : List (WinDivertNetworkData × InternetPacket))
    (hb : cidBypass p.connection_id = false)
    (hg : lruGet s.connections p.connection_id = some (.Unknown ps)) :
    stepT s (.NetworkPacket addr (some p)) =
      ({ s with connections :=
          lruModify s.connections p.connection_id (pushPacket addr p) }, []) := by
  have hb' : ((p.src_ip.is_multicast || p.dst_ip.is_multicast)
      || (p.src_ip.is_loopback && p.dst_ip.is_loopback)) = false := hb
  simp [stepT, hb', hg]

theorem stepT_net_out (s : LoopState) (addr : WinDivertNetworkData)
    (p : InternetPacket)
    (hb : cidBypass p.connection_id = false)
    (hg : lruGet s.connections p.connection_id = none)
    (ho : addr.outbound = true) :
    stepT s (.NetworkPacket addr (some p)) =
      ({ s with connections :=
          (lruInsert s.connections p.connection_id (.Unknown [(addr, p)])).1 }, []) := by
  have hb' : ((p.src_ip.is_multicast || p.dst_ip.is_multicast)
      || (p.src_ip.is_loopback && p.dst_ip.is_loopback)) = false := hb
  simp [stepT, hb', hg, ho]

theorem stepT_net_in (s : LoopState) (addr : WinDivertNetworkData)
    (p : InternetPacket)
    (hb : cidBypass p.connection_id = false)
    (hg : lruGet s.connections p.connection_id = none)
    (ho : addr.outbound = false) :
    stepT s (.NetworkPacket addr (some p)) =
      ({ s with connections :=
          (insert_into_connectionsT
            (insert_into_connectionsT s.connections p.connection_id.reverse .None).1
            p.connection_id .Intercept).1 },
       (insert_into_connectionsT s.connections p.connection_id.reverse .None).2
         ++ ((insert_into_connectionsT
              (insert_into_connectionsT s.connections p.connection_id.reverse .None).1
              p.connection_id .Intercept).2
             ++ [process_packetT addr p .Intercept])) := by
  have hb' : ((p.src_ip.is_multicast || p.dst_ip.is_multicast)
      || (p.src_ip.is_loopback && p.dst_ip.is_loopback)) = false := hb
  simp [stepT, hb', hg, ho]

theorem stepT_sock_pid4 (s : LoopState) (ev : WinDivertEvent)
    (proto : Option TransportProtocol) (la ra : SocketAddr) :
    stepT s (.SocketEvent ev 4 proto la ra) = (s, []) := by
  simp [stepT]

theorem stepT_sock_noproto (s : LoopState) (ev : WinDivertEvent) (pid : PID)
    (la ra : SocketAddr) :
    stepT s (.SocketEvent ev pid none la ra) = (s, []) := by
  by_cases h : pid = 4 <;> simp [stepT, h]

theorem stepT_sock_mc (s : LoopState) (ev : WinDivertEvent) (pid : PID)
    (proto : TransportProtocol) (la ra : SocketAddr)
    (hmc : (la.ip.is_multicast || ra.ip.is_multicast) = true) :
    stepT s (.SocketEvent ev pid (some proto) la ra) = (s, []) := by
  by_cases h : pid = 4 <;> simp [stepT, h, hmc]

theorem stepT_sock_other (s : LoopState) (pid : PID)
    (proto : Option TransportProtocol) (la ra : SocketAddr) :
    stepT s (.SocketEvent .Other pid proto la ra) = (s, []) := by
  by_cases h : pid = 4
  · simp [stepT, h]
  · cases proto with
    | none => simp [stepT, h]
    | some pr =>
        by_cases hmc : (la.ip.is_multicast || ra.ip.is_multicast) = true
        · simp [stepT, h, hmc]
        · rw [Bool.not_eq_true] at hmc
          simp [stepT, h, hmc]

theorem stepT_close (s : LoopState) (pid : PID) (proto : TransportProtocol)
    (la ra : SocketAddr) (hpid : pid ≠ 4)
    (hmc : (la.ip.is_multicast || ra.ip.is_multicast) = false) :
    stepT s (.SocketEvent .SocketClose pid (some proto) la ra) =
      ({ s with connections :=
          lruModify s.connections ⟨proto, la, ra⟩ clearBuffer }, []) := by
  simp [stepT, hpid, hmc]

theorem stepT_connect_entry (s : LoopState) (ev : WinDivertEvent) (pid : PID)
    (proto : TransportProtocol) (la ra : SocketAddr)
    (hev : ev = .SocketConnect ∨ ev = .SocketAccept) (hpid : pid ≠ 4)
    (hmc : (la.ip.is_multicast || ra.ip.is_multicast) = false)
    (hme : lruGet s.connections ⟨proto, la, ra⟩ = none
        ∨ ∃ ps, lruGet s.connections ⟨proto, la, ra⟩ = some (.Unknown ps)) :
    stepT s (.SocketEvent ev pid (some proto) la ra) =
      ({ s with connections :=
          (insert_into_connectionsT
            (insert_into_connectionsT s.connections
              (ConnectionId.mk proto la ra).reverse .None).1
            ⟨proto, la, ra⟩
            (if s.state.should_intercept pid then .Intercept else .None)).1 },
       (insert_into_connectionsT s.connections
          (ConnectionId.mk proto la ra).reverse .None).2
         ++ (insert_into_connectionsT
              (insert_into_connectionsT s.connections
                (ConnectionId.mk proto la ra).reverse .None).1
              ⟨proto, la, ra⟩
              (if s.state.should_intercept pid then .Intercept else .None)).2) := by
  rcases hev with rfl | rfl <;>
    rcases hme with hg | ⟨ps, hg⟩ <;>
      simp [stepT, hpid, hmc, hg]

theorem stepT_connect_known (s : LoopState) (ev : WinDivertEvent) (pid : PID)
    (proto : TransportProtocol) (la ra : SocketAddr) (a : ConnectionAction)
    (hev : ev = .SocketConnect ∨ ev = .SocketAccept)
    (hg : lruGet s.connections ⟨proto, la, ra⟩ = some (.Known a)) :
    stepT s (.SocketEvent ev pid (some proto) la ra) = (s, []) := by
  rcases hev with rfl | rfl <;>
  · by_cases hpid : pid = 4
    · simp [stepT, hpid]
    · by_cases hmc : (la.ip.is_multicast || ra.ip.is_multicast) = true
      · simp [stepT, hpid, hmc]
      · rw [Bool.not_eq_true] at hmc
        simp [stepT, hpid, hmc, hg]

theorem stepT_inject_eq (s : LoopState) (buf : List Nat) :
    stepT s (.Inject buf) = (s, [.injectRaw injectMeta buf]) := rfl

theorem stepT_include (s : LoopState) (a : List PID) :
    stepT s (.InterceptInclude a) = ({ s with state := .InterceptInclude a }, []) := rfl

theorem stepT_exclude (s : LoopState) (a : List PID) :
    stepT s (.InterceptExclude a) = ({ s with state := .InterceptExclude a }, []) := rfl

theorem runT_cons (s : LoopState) (m : Message) (msgs : List Message) :
    runT s (m :: msgs) =
      ((runT (stepT s m).1 msgs).1, (stepT s m).2 ++ (runT (stepT s m).1 msgs).2) := rfl

theorem stepT_fst (s : LoopState) (m : Message) : (stepT s m).1 = (step s m).1 := by
  cases m with
  | NetworkPacket addr parsed =>
      cases parsed with
      | none => rfl
      | some p =>
          by_cases hb : cidBypass p.connection_id = true
          · rw [stepT_net_bypass s addr p hb, step_net_bypass s addr p hb]
          · rw [Bool.not_eq_true] at hb
            rcases hg : lruGet s.connections p.connection_id with _ | v
            · by_cases ho : addr.outbound = true
              · rw [stepT_net_out s addr p hb hg ho, step_net_out s addr p hb hg ho]
              · rw [Bool.not_eq_true] at ho
                rw [stepT_net_in s addr p hb hg ho, step_net_in s addr p hb hg ho]
                simp only [iicT_fst]
            · cases v with
              | Known a =>
                  rw [stepT_net_known s addr p a hb hg, step_net_known s addr p a hb hg]
              | Unknown ps =>
                  rw [stepT_net_unknown s addr p ps hb hg,
                    step_net_unknown s addr p ps hb hg]
  | SocketEvent ev pid proto la ra =>
      by_cases hpid : pid = 4
      · subst hpid; rw [stepT_sock_pid4, step_sock_pid4]
      · cases proto with
        | none => rw [stepT_sock_noproto, step_sock_noproto]
        | some proto =>
            by_cases hmc : (la.ip.is_multicast || ra.ip.is_multicast) = true
            · rw [stepT_sock_mc s ev pid proto la ra hmc,
                step_sock_mc s ev pid proto la ra hmc]
            · rw [Bool.not_eq_true] at hmc
              have hconn : ∀ hev : ev = WinDivertEvent.SocketConnect
                    ∨ ev = WinDivertEvent.SocketAccept,
                  (stepT s (.SocketEvent ev pid (some proto) la ra)).1
                    = (step s (.SocketEvent ev pid (some proto) la ra)).1 := by
                intro hev
                rcases hg : lruGet s.connections ⟨proto, la, ra⟩ with _ | v
                · rw [stepT_connect_entry s ev pid proto la ra hev hpid hmc (Or.inl hg),
                    step_connect_entry s ev pid proto la ra hev hpid hmc (Or.inl hg)]
                  simp only [iicT_fst]
                · cases v with
                  | Known b =>
                      rw [stepT_connect_known s ev pid proto la ra b hev hg,
                        step_connect_known s ev pid proto la ra b hev hg]
                  | Unknown ps =>
                      rw [stepT_connect_entry s ev pid proto la ra hev hpid hmc
                          (Or.inr ⟨ps, hg⟩),
                        step_connect_entry s ev pid proto la ra hev hpid hmc
                          (Or.inr ⟨ps, hg⟩)]
                      simp only [iicT_fst]
              cases ev with
              | SocketConnect => exact hconn (Or.inl rfl)
              | SocketAccept => exact hconn (Or.inr rfl)
              | SocketClose =>
                  rw [stepT_close s pid proto la ra hpid hmc,
                    step_close s pid proto la ra hpid hmc]
              | Other => rw [stepT_sock_other, step_sock_other]
  | Inject buf => rfl
  | InterceptInclude a => rfl
  | InterceptExclude a => rfl

theorem stepT_snd (s : LoopState) (m : Message) :
    (stepT s m).2.map eraseT = (step s m).2 := by
  cases m with
  | NetworkPacket addr parsed =>
      cases parsed with
      | none => rfl
      | some p =>
          by_cases hb : cidBypass p.connection_id = true
          · rw [stepT_net_bypass s addr p hb, step_net_bypass s addr p hb]
            rfl
          · rw [Bool.not_eq_true] at hb
            rcases hg : lruGet s.connections p.connection_id with _ | v
            · by_cases ho : addr.outbound = true
              · rw [stepT_net_out s addr p hb hg ho, step_net_out s addr p hb hg ho]
                rfl
              · rw [Bool.not_eq_true] at ho
                rw [stepT_net_in s addr p hb hg ho, step_net_in s addr p hb hg ho]
                simp only [List.map_append, List.map_cons, List.map_nil, iicT_snd,
                  iicT_fst, eraseT_process]
            · cases v with
              | Known a =>
                  rw [stepT_net_known s addr p a hb hg, step_net_known s addr p a hb hg]
                  simp only [List.map_cons, List.map_nil, eraseT_process]
              | Unknown ps =>
                  rw [stepT_net_unknown s addr p ps hb hg,
                    step_net_unknown s addr p ps hb hg]
                  rfl
  | SocketEvent ev pid proto la ra =>
      by_cases hpid : pid = 4
      · subst hpid; rw [stepT_sock_pid4, step_sock_pid4]; rfl
      · cases proto with
        | none => rw [stepT_sock_noproto, step_sock_noproto]; rfl
        | some proto =>
            by_cases hmc : (la.ip.is_multicast || ra.ip.is_multicast) = true
            · rw [stepT_sock_mc s ev pid proto la ra hmc,
                step_sock_mc s ev pid proto la ra hmc]
              rfl
            · rw [Bool.not_eq_true] at hmc
              have hconn : ∀ hev : ev = WinDivertEvent.SocketConnect
                    ∨ ev = WinDivertEvent.SocketAccept,
                  (stepT s (.SocketEvent ev pid (some proto) la ra)).2.map eraseT
                    = (step s (.SocketEvent ev pid (some proto) la ra)).2 := by
                intro hev
                rcases hg : lruGet s.connections ⟨proto, la, ra⟩ with _ | v
                · rw [stepT_connect_entry s ev pid proto la ra hev hpid hmc (Or.inl hg),
                    step_connect_entry s ev pid proto la ra hev hpid hmc (Or.inl hg)]
                  simp only [List.map_append, iicT_snd, iicT_fst]
                · cases v with
                  | Known b =>
                      rw [stepT_connect_known s ev pid proto la ra b hev hg,
                        step_connect_known s ev pid proto la ra b hev hg]
                      rfl
                  | Unknown ps =>
                      rw [stepT_connect_entry s ev pid proto la ra hev hpid hmc
                          (Or.inr ⟨ps, hg⟩),
                        step_connect_entry s ev pid proto la ra hev hpid hmc
                          (Or.inr ⟨ps, hg⟩)]
                      simp only [List.map_append, iicT_snd, iicT_fst]
              cases ev with
              | SocketConnect => exact hconn (Or.inl rfl)
              | SocketAccept => exact hconn (Or.inr rfl)
              | SocketClose =>
                  rw [stepT_close s pid proto la ra hpid hmc,
                    step_close s pid proto la ra hpid hmc]
                  rfl
              | Other => rw [stepT_sock_other, step_sock_other]; rfl
  | Inject buf => rfl
  | InterceptInclude a => rfl
  | InterceptExclude a => rfl

theorem runT_fst (msgs : List Message) :
    ∀ s : LoopState, (runT s msgs).1 = (run s msgs).1 := by
  induction msgs with
  | nil => intro s; rfl
  | cons m rest ih =>
      intro s
      rw [runT_cons, run_cons]
      show (runT (stepT s m).1 rest).1 = (run (step s m).1 rest).1
      rw [stepT_fst, ih]

theorem runT_snd (msgs : List Message) :
    ∀ s : LoopState, (runT s msgs).2.map eraseT = (run s msgs).2 := by
  induction msgs with
  | nil => intro s; rfl
  | cons m rest ih =>
      intro s
      rw [runT_cons, run_cons]
      show ((stepT s m).2 ++ (runT (stepT s m).1 rest).2).map eraseT = _
      rw [List.map_append, stepT_snd, stepT_fst, ih]

end Redirector

namespace Redirector

/-! ## Buffer coherence and per-flow projections -/

theorem iicT_drain (t : Table) (key : ConnectionId) (a : ConnectionAction)
    (ps : List (WinDivertNetworkData × InternetPacket))
    (h : lruGet t key = some (.Unknown ps)) :
    (insert_into_connectionsT t key a).2 =
      ps.map fun q => process_packetT q.1 q.2 a := by
  simp only [insert_into_connectionsT]
  rw [lruInsert_snd, h]

theorem iicT_no_drain (t : Table) (key : ConnectionId) (a : ConnectionAction)
    (h : ∀ ps, lruGet t key ≠ some (.Unknown ps)) :
    (insert_into_connectionsT t key a).2 = [] := by
  simp only [insert_into_connectionsT]
  rw [lruInsert_snd]
  rcases hg : lruGet t key with _ | st
  · rfl
  · cases st with
    | Known a' => rfl
    | Unknown ps => exact absurd hg (h ps)

theorem bufCoherent_insert_into (t : Table) (c : ConnectionId) (a : ConnectionAction)
    (hc : BufCoherent t) : BufCoherent (insert_into_connections t c a).1 := by
  intro k ps hget q hq
  rw [lruGet_insert_into] at hget
  by_cases h1 : c = k
  · rw [if_pos h1] at hget; simp at hget
  · rw [if_neg h1] at hget; exact hc k ps hget q hq

theorem bufCoherent_step (s : LoopState) (m : Message)
    (hc : BufCoherent s.connections) : BufCoherent (step s m).1.connections := by
  cases m with
  | NetworkPacket addr parsed =>
      cases parsed with
      | none => exact hc
      | some p =>
          by_cases hb : cidBypass p.connection_id = true
          · rw [step_net_bypass s addr p hb]; exact hc
          · rw [Bool.not_eq_true] at hb
            rcases hg : lruGet s.connections p.connection_id with _ | v
            · by_cases ho : addr.outbound = true
              · rw [step_net_out s addr p hb hg ho]
                show BufCoherent (lruInsert s.connections p.connection_id
                  (.Unknown [(addr, p)])).1
                intro k ps hget q hq
                rw [lruGet_insert] at hget
                by_cases h1 : p.connection_id = k
                · rw [if_pos h1] at hget
                  simp only [Option.some.injEq, ConnectionState.Unknown.injEq] at hget
                  subst hget
                  rcases List.mem_singleton.mp hq with rfl
                  exact h1
                · rw [if_neg h1] at hget; exact hc k ps hget q hq
              · rw [Bool.not_eq_true] at ho
                rw [step_net_in s addr p hb hg ho]
                show BufCoherent (insert_into_connections
                  (insert_into_connections s.connections p.connection_id.reverse .None).1
                  p.connection_id .Intercept).1
                exact bufCoherent_insert_into _ _ _ (bufCoherent_insert_into _ _ _ hc)
            · cases v with
              | Known a => rw [step_net_known s addr p a hb hg]; exact hc
              | Unknown ps0 =>
                  rw [step_net_unknown s addr p ps0 hb hg]
                  show BufCoherent (lruModify s.connections p.connection_id
                    (pushPacket addr p))
                  intro k ps hget q hq
                  rw [lruGet_modify] at hget
                  by_cases h1 : p.connection_id = k
                  · rw [if_pos h1, hg] at hget
                    simp only [Option.map_some'] at hget
                    have hpp : pushPacket addr p (.Unknown ps0)
                        = .Unknown (ps0 ++ [(addr, p)]) := rfl
                    rw [hpp] at hget
                    simp only [Option.some.injEq, ConnectionState.Unknown.injEq] at hget
                    subst hget
                    rcases List.mem_append.mp hq with hq1 | hq2
                    · exact hc k ps0 (by rw [← h1]; exact hg) q hq1
                    · rcases List.mem_singleton.mp hq2 with rfl
                      exact h1
                  · rw [if_neg h1] at hget; exact hc k ps hget q hq
  | SocketEvent ev pid proto la ra =>
      by_cases hpid : pid = 4
      · subst hpid; rw [step_sock_pid4]; exact hc
      · cases proto with
        | none => rw [step_sock_noproto]; exact hc
        | some proto =>
            by_cases hmc : (la.ip.is_multicast || ra.ip.is_multicast) = true
            · rw [step_sock_mc s ev pid proto la ra hmc]; exact hc
            · rw [Bool.not_eq_true] at hmc
              have hconn : ∀ hev : ev = WinDivertEvent.SocketConnect
                    ∨ ev = WinDivertEvent.SocketAccept,
                  BufCoherent (step s (.SocketEvent ev pid (some proto) la ra)).1.connections := by
                intro hev
                rcases hg : lruGet s.connections ⟨proto, la, ra⟩ with _ | v
                · rw [step_connect_entry s ev pid proto la ra hev hpid hmc (Or.inl hg)]
                  exact bufCoherent_insert_into _ _ _ (bufCoherent_insert_into _ _ _ hc)
                · cases v with
                  | Known b =>
                      rw [step_connect_known s ev pid proto la ra b hev hg]
                      exact hc
                  | Unknown ps =>
                      rw [step_connect_entry s ev pid proto la ra hev hpid hmc
                        (Or.inr ⟨ps, hg⟩)]
                      exact bufCoherent_insert_into _ _ _ (bufCoherent_insert_into _ _ _ hc)
              cases ev with
              | SocketConnect => exact hconn (Or.inl rfl)
              | SocketAccept => exact hconn (Or.inr rfl)
              | SocketClose =>
                  rw [step_close s pid proto la ra hpid hmc]
                  show BufCoherent (lruModify s.connections ⟨proto, la, ra⟩ clearBuffer)
                  intro k ps hget q hq
                  rw [lruGet_modify] at hget
                  by_cases h1 : (⟨proto, la, ra⟩ : ConnectionId) = k
                  · rw [if_pos h1] at hget
                    rcases hg : lruGet s.connections ⟨proto, la, ra⟩ with _ | v
                    · rw [hg] at hget; simp at hget
                    · rw [hg] at hget
                      simp only [Option.map_some'] at hget
                      cases v with
                      | Known b => simp [clearBuffer] at hget
                      | Unknown ps0 =>
                          have hcb : clearBuffer (.Unknown ps0) = .Unknown [] := rfl
                          rw [hcb] at hget
                          simp only [Option.some.injEq,
                            ConnectionState.Unknown.injEq] at hget
                          subst hget
                          simp at hq
                  · rw [if_neg h1] at hget; exact hc k ps hget q hq
              | Other => rw [step_sock_other]; exact hc
  | Inject buf => exact hc
  | InterceptInclude a => exact hc
  | InterceptExclude a => exact hc

theorem pendingAt_none (t : Table) (k : ConnectionId) (hg : lruGet t k = none) :
    pendingAt t k = [] := by
  unfold pendingAt; rw [hg]

theorem pendingAt_known (t : Table) (k : ConnectionId) (a : ConnectionAction)
    (hg : lruGet t k = some (.Known a)) : pendingAt t k = [] := by
  unfold pendingAt; rw [hg]

theorem pendingAt_unknown (t : Table) (k : ConnectionId)
    (ps : List (WinDivertNetworkData × InternetPacket))
    (hg : lruGet t k = some (.Unknown ps)) : pendingAt t k = ps.map (·.2) := by
  unfold pendingAt; rw [hg]

theorem pendingAt_insert_into (t : Table) (c : ConnectionId) (a : ConnectionAction)
    (k : ConnectionId) :
    pendingAt (insert_into_connections t c a).1 k
      = if c = k then [] else pendingAt t k := by
  unfold pendingAt
  rw [lruGet_insert_into]
  by_cases h : c = k
  · simp [h]
  · simp [h]

theorem pendingAt_double (t : Table) (r c : ConnectionId) (a : ConnectionAction)
    (k : ConnectionId) :
    pendingAt (insert_into_connections
        (insert_into_connections t r .None).1 c a).1 k
      = if c = k then [] else if r = k then [] else pendingAt t k := by
  rw [pendingAt_insert_into]
  by_cases h1 : c = k
  · rw [if_pos h1, if_pos h1]
  · rw [if_neg h1, if_neg h1, pendingAt_insert_into]

theorem pendingAt_modify_ne (t : Table) (c : ConnectionId)
    (f : ConnectionState → ConnectionState) (k : ConnectionId) (h : c ≠ k) :
    pendingAt (lruModify t c f) k = pendingAt t k := by
  unfold pendingAt; rw [lruGet_modify, if_neg h]

theorem pendingAt_clear (t : Table) (c : ConnectionId) :
    pendingAt (lruModify t c clearBuffer) c = [] := by
  unfold pendingAt
  rw [lruGet_modify, if_pos rfl]
  rcases hg : lruGet t c with _ | v
  · rfl
  · cases v <;> rfl

theorem pendingAt_push (t : Table) (c : ConnectionId) (addr : WinDivertNetworkData)
    (p : InternetPacket) (ps : List (WinDivertNetworkData × InternetPacket))
    (hg : lruGet t c = some (.Unknown ps)) :
    pendingAt (lruModify t c (pushPacket addr p)) c = pendingAt t c ++ [p] := by
  unfold pendingAt
  rw [lruGet_modify, if_pos rfl, hg]
  show ((ps ++ [(addr, p)]).map (·.2)) = ps.map (·.2) ++ [p]
  simp

theorem pendingAt_insert_new (t : Table) (c : ConnectionId)
    (addr : WinDivertNetworkData) (p : InternetPacket) :
    pendingAt (lruInsert t c (.Unknown [(addr, p)])).1 c = [p] := by
  unfold pendingAt
  rw [lruGet_insert, if_pos rfl]
  rfl

theorem pendingAt_insert_ne (t : Table) (c : ConnectionId) (v : ConnectionState)
    (k : ConnectionId) (h : c ≠ k) :
    pendingAt (lruInsert t c v).1 k = pendingAt t k := by
  unfold pendingAt
  rw [lruGet_insert, if_neg h]

theorem flowOuts_append (k : ConnectionId) (xs ys : List TOutput) :
    flowOuts k (xs ++ ys) = flowOuts k xs ++ flowOuts k ys := by
  simp [flowOuts]

theorem flowOuts_injectPkt_ne (k : ConnectionId) (addr : WinDivertNetworkData)
    (p : InternetPacket) (h : p.connection_id ≠ k) :
    flowOuts k [.injectPkt addr p] = [] := by
  simp [flowOuts, toutFlow, h]

theorem flowOuts_proc_eq (k : ConnectionId) (addr : WinDivertNetworkData)
    (p : InternetPacket) (a : ConnectionAction) (h : p.connection_id = k) :
    flowOuts k [process_packetT addr p a] = [p] := by
  cases a <;> simp [flowOuts, process_packetT, toutFlow, h]

theorem flowOuts_proc_ne (k : ConnectionId) (addr : WinDivertNetworkData)
    (p : InternetPacket) (a : ConnectionAction) (h : p.connection_id ≠ k) :
    flowOuts k [process_packetT addr p a] = [] := by
  cases a <;> simp [flowOuts, process_packetT, toutFlow, h]

theorem flowOuts_drain_eq (k : ConnectionId)
    (ps : List (WinDivertNetworkData × InternetPacket)) (a : ConnectionAction)
    (h : ∀ q ∈ ps, q.2.connection_id = k) :
    flowOuts k (ps.map fun q => process_packetT q.1 q.2 a) = ps.map (·.2) := by
  induction ps with
  | nil => rfl
  | cons q rest ih =>
      have hq := h q (List.mem_cons_self q rest)
      have ih' := ih fun q' hq' => h q' (List.mem_cons_of_mem _ hq')
      simp only [List.map_cons]
      show flowOuts k (process_packetT q.1 q.2 a
        :: rest.map fun q' => process_packetT q'.1 q'.2 a) = q.2 :: rest.map (·.2)
      rw [show (process_packetT q.1 q.2 a
            :: rest.map fun q' => process_packetT q'.1 q'.2 a)
          = [process_packetT q.1 q.2 a]
            ++ rest.map fun q' => process_packetT q'.1 q'.2 a from rfl]
      rw [flowOuts_append, flowOuts_proc_eq k q.1 q.2 a hq, ih']
      rfl

theorem flowOuts_drain_ne (k j : ConnectionId)
    (ps : List (WinDivertNetworkData × InternetPacket)) (a : ConnectionAction)
    (hj : j ≠ k) (h : ∀ q ∈ ps, q.2.connection_id = j) :
    flowOuts k (ps.map fun q => process_packetT q.1 q.2 a) = [] := by
  induction ps with
  | nil => rfl
  | cons q rest ih =>
      have hq := h q (List.mem_cons_self q rest)
      have ih' := ih fun q' hq' => h q' (List.mem_cons_of_mem _ hq')
      simp only [List.map_cons]
      show flowOuts k (process_packetT q.1 q.2 a
        :: rest.map fun q' => process_packetT q'.1 q'.2 a) = []
      rw [show (process_packetT q.1 q.2 a
            :: rest.map fun q' => process_packetT q'.1 q'.2 a)
          = [process_packetT q.1 q.2 a]
            ++ rest.map fun q' => process_packetT q'.1 q'.2 a from rfl]
      rw [flowOuts_append, flowOuts_proc_ne k q.1 q.2 a (by rw [hq]; exact hj), ih']
      rfl

theorem flowOuts_iicT (t : Table) (c : ConnectionId) (a : ConnectionAction)
    (k : ConnectionId) (hc : BufCoherent t) :
    flowOuts k (insert_into_connectionsT t c a).2
      = if c = k then pendingAt t k else [] := by
  rcases hg : lruGet t c with _ | v
  · rw [iicT_no_drain t c a (by rw [hg]; intro ps h; cases h)]
    by_cases h : c = k
    · rw [if_pos h, ← h, pendingAt_none t c hg]; rfl
    · rw [if_neg h]; rfl
  · cases v with
    | Known b =>
        rw [iicT_no_drain t c a (by rw [hg]; intro ps h; cases h)]
        by_cases h : c = k
        · rw [if_pos h, ← h, pendingAt_known t c b hg]; rfl
        · rw [if_neg h]; rfl
    | Unknown ps =>
        rw [iicT_drain t c a ps hg]
        by_cases h : c = k
        · rw [if_pos h]
          rw [flowOuts_drain_eq k ps a (fun q hq => by
            rw [← h]; exact hc c ps hg q hq)]
          rw [← h, pendingAt_unknown t c ps hg]
        · rw [if_neg h]
          exact flowOuts_drain_ne k c ps a h (hc c ps hg)

theorem flowIn_cons_none (k : ConnectionId) (m : Message) (rest : List Message)
    (hm : msgFlow k m = none) :
    flowIn k (m :: rest) = flowIn k rest := by
  simp [flowIn, List.filterMap_cons, hm]

theorem flowIn_cons_net_eq (k : ConnectionId) (addr : WinDivertNetworkData)
    (p : InternetPacket) (rest : List Message) (h : p.connection_id = k) :
    flowIn k (.NetworkPacket addr (some p) :: rest) = p :: flowIn k rest := by
  simp [flowIn, List.filterMap_cons, msgFlow, h]

theorem flowIn_cons_net_ne (k : ConnectionId) (addr : WinDivertNetworkData)
    (p : InternetPacket) (rest : List Message) (h : p.connection_id ≠ k) :
    flowIn k (.NetworkPacket addr (some p) :: rest) = flowIn k rest := by
  simp [flowIn, List.filterMap_cons, msgFlow, h]

end Redirector

namespace Redirector

theorem bufCoherent_insert_unknown (t : Table) (addr : WinDivertNetworkData)
    (p : InternetPacket) (hc : BufCoherent t) :
    BufCoherent (lruInsert t p.connection_id (.Unknown [(addr, p)])).1 := by
  intro k ps hget q hq
  rw [lruGet_insert] at hget
  by_cases h1 : p.connection_id = k
  · rw [if_pos h1] at hget
    simp only [Option.some.injEq, ConnectionState.Unknown.injEq] at hget
    subst hget
    rcases List.mem_singleton.mp hq with rfl
    exact h1
  · rw [if_neg h1] at hget
    exact hc k ps hget q hq

theorem bufCoherent_push (t : Table) (addr : WinDivertNetworkData)
    (p : InternetPacket) (ps0 : List (WinDivertNetworkData × InternetPacket))
    (hg : lruGet t p.connection_id = some (.Unknown ps0)) (hc : BufCoherent t) :
    BufCoherent (lruModify t p.connection_id (pushPacket addr p)) := by
  intro k ps hget q hq
  rw [lruGet_modify] at hget
  by_cases h1 : p.connection_id = k
  · rw [if_pos h1, hg] at hget
    simp only [Option.map_some'] at hget
    have hpp : pushPacket addr p (.Unknown ps0) = .Unknown (ps0 ++ [(addr, p)]) := rfl
    rw [hpp] at hget
    simp only [Option.some.injEq, ConnectionState.Unknown.injEq] at hget
    subst hget
    rcases List.mem_append.mp hq with hq1 | hq2
    · exact hc k ps0 (by rw [← h1]; exact hg) q hq1
    · rcases List.mem_singleton.mp hq2 with rfl
      exact h1
  · rw [if_neg h1] at hget
    exact hc k ps hget q hq

theorem bufCoherent_clear (t : Table) (c : ConnectionId) (hc : BufCoherent t) :
    BufCoherent (lruModify t c clearBuffer) := by
  intro k ps hget q hq
  rw [lruGet_modify] at hget
  by_cases h1 : c = k
  · rw [if_pos h1] at hget
    rcases hg : lruGet t c with _ | v
    · rw [hg] at hget; simp at hget
    · rw [hg] at hget
      simp only [Option.map_some'] at hget
      cases v with
      | Known b => simp [clearBuffer] at hget
      | Unknown ps0 =>
          have hcb : clearBuffer (.Unknown ps0) = .Unknown [] := rfl
          rw [hcb] at hget
          simp only [Option.some.injEq, ConnectionState.Unknown.injEq] at hget
          subst hget
          simp at hq
  · rw [if_neg h1] at hget
    exact hc k ps hget q hq

end Redirector


namespace Redirector

theorem flow_order (msgs : List Message) : ∀ (s : LoopState) (k : ConnectionId),
    BufCoherent s.connections → cidBypass k = false →
    List.Sublist (flowOuts k (runT s msgs).2)
      (pendingAt s.connections k ++ flowIn k msgs) := by
  induction msgs with
  | nil =>
      intro s k hc hb
      exact List.nil_sublist _
  | cons m rest ih =>
      intro s k hc hb
      cases m with
      | NetworkPacket addr parsed =>
          cases parsed with
          | none =>
              have hstep := stepT_net_none s addr
              simp only [runT_cons, hstep, flowOuts_append]
              rw [flowIn_cons_none k (.NetworkPacket addr none) rest rfl]
              rw [show flowOuts k ([] : List TOutput) = [] from rfl, List.nil_append]
              exact ih s k hc hb
          | some p =>
              by_cases hbp : cidBypass p.connection_id = true
              · have hpk : p.connection_id ≠ k := by
                  intro hh
                  rw [hh, hb] at hbp
                  cases hbp
                have hstep := stepT_net_bypass s addr p hbp
                simp only [runT_cons, hstep, flowOuts_append]
                rw [flowOuts_injectPkt_ne k addr p hpk, List.nil_append,
                  flowIn_cons_net_ne k addr p rest hpk]
                exact ih s k hc hb
              · rw [Bool.not_eq_true] at hbp
                rcases hg : lruGet s.connections p.connection_id with _ | v
                · by_cases ho : addr.outbound = true
                  · have hstep := stepT_net_out s addr p hbp hg ho
                    simp only [runT_cons, hstep, flowOuts_append]
                    have hcX := bufCoherent_insert_unknown s.connections addr p hc
                    have IH' : List.Sublist
                        (flowOuts k (runT (⟨(lruInsert s.connections p.connection_id
                            (.Unknown [(addr, p)])).1, s.state⟩ : LoopState) rest).2)
                        (pendingAt (lruInsert s.connections p.connection_id
                            (.Unknown [(addr, p)])).1 k ++ flowIn k rest) :=
                      ih _ k hcX hb
                    rw [show flowOuts k ([] : List TOutput) = [] from rfl, List.nil_append]
                    by_cases hpk : p.connection_id = k
                    · subst hpk
                      rw [pendingAt_insert_new] at IH'
                      rw [pendingAt_none s.connections _ hg, List.nil_append]
                      rw [flowIn_cons_net_eq _ addr p rest rfl]
                      exact IH'
                    · rw [pendingAt_insert_ne _ _ _ k hpk] at IH'
                      rw [flowIn_cons_net_ne k addr p rest hpk]
                      exact IH'
                  · rw [Bool.not_eq_true] at ho
                    have hstep := stepT_net_in s addr p hbp hg ho
                    simp only [runT_cons, hstep, flowOuts_append]
                    have hcR : BufCoherent (insert_into_connectionsT s.connections
                        p.connection_id.reverse .None).1 := by
                      rw [iicT_fst]
                      exact bufCoherent_insert_into _ _ _ hc
                    have hcX : BufCoherent (insert_into_connectionsT
                        (insert_into_connectionsT s.connections
                          p.connection_id.reverse .None).1
                        p.connection_id .Intercept).1 := by
                      rw [iicT_fst, iicT_fst]
                      exact bufCoherent_insert_into _ _ _ (bufCoherent_insert_into _ _ _ hc)
                    have hA := flowOuts_iicT s.connections p.connection_id.reverse .None k hc
                    have hB := flowOuts_iicT (insert_into_connectionsT s.connections
                        p.connection_id.reverse .None).1 p.connection_id .Intercept k hcR
                    have hpend1 : pendingAt (insert_into_connectionsT s.connections
                          p.connection_id.reverse .None).1 k
                        = if p.connection_id.reverse = k then []
                          else pendingAt s.connections k := by
                      rw [iicT_fst]
                      exact pendingAt_insert_into _ _ _ _
                    have IH' : List.Sublist
                        (flowOuts k (runT (⟨(insert_into_connectionsT
                            (insert_into_connectionsT s.connections
                              p.connection_id.reverse .None).1
                            p.connection_id .Intercept).1, s.state⟩ : LoopState) rest).2)
                        (pendingAt (insert_into_connectionsT
                            (insert_into_connectionsT s.connections
                              p.connection_id.reverse .None).1
                            p.connection_id .Intercept).1 k ++ flowIn k rest) :=
                      ih _ k hcX hb
                    have hpendX : pendingAt (insert_into_connectionsT
                          (insert_into_connectionsT s.connections
                            p.connection_id.reverse .None).1
                          p.connection_id .Intercept).1 k
                        = if p.connection_id = k then []
                          else if p.connection_id.reverse = k then []
                          else pendingAt s.connections k := by
                      rw [iicT_fst, iicT_fst]
                      exact pendingAt_double _ _ _ _ _
                    rw [hpendX] at IH'
                    by_cases hpk : p.connection_id = k
                    · subst hpk
                      rw [if_pos rfl] at IH'
                      have hA' : flowOuts p.connection_id
                          (insert_into_connectionsT s.connections
                            p.connection_id.reverse .None).2 = [] := by
                        rw [hA]
                        by_cases hr : p.connection_id.reverse = p.connection_id
                        · rw [if_pos hr, pendingAt_none s.connections _ hg]
                        · rw [if_neg hr]
                      have hB' : flowOuts p.connection_id
                          (insert_into_connectionsT (insert_into_connectionsT s.connections
                            p.connection_id.reverse .None).1
                            p.connection_id .Intercept).2 = [] := by
                        rw [hB, if_pos rfl, hpend1]
                        by_cases hr : p.connection_id.reverse = p.connection_id
                        · rw [if_pos hr]
                        · rw [if_neg hr, pendingAt_none s.connections _ hg]
                      rw [hA', hB', flowOuts_proc_eq _ addr p .Intercept rfl]
                      rw [pendingAt_none s.connections _ hg]
                      rw [flowIn_cons_net_eq _ addr p rest rfl]
                      simp only [List.nil_append]
                      exact IH'.cons₂ p
                    · rw [if_neg hpk] at IH'
                      rw [hA, hB, flowOuts_proc_ne _ addr p .Intercept hpk]
                      rw [if_neg hpk]
                      rw [flowIn_cons_net_ne k addr p rest hpk]
                      by_cases hrk : p.connection_id.reverse = k
                      · rw [if_pos hrk]
                        rw [if_pos hrk] at IH'
                        simp only [List.nil_append, List.append_nil]
                        exact IH'.append_left _
                      · rw [if_neg hrk]
                        rw [if_neg hrk] at IH'
                        simp only [List.nil_append]
                        exact IH'
                · cases v with
                  | Known a =>
                      have hstep := stepT_net_known s addr p a hbp hg
                      simp only [runT_cons, hstep, flowOuts_append]
                      by_cases hpk : p.connection_id = k
                      · subst hpk
                        rw [flowOuts_proc_eq _ addr p a rfl]
                        rw [pendingAt_known s.connections _ a hg, List.nil_append]
                        rw [flowIn_cons_net_eq _ addr p rest rfl]
                        have IH' := ih s _ hc hb
                        rw [pendingAt_known s.connections _ a hg] at IH'
                        exact IH'.cons₂ p
                      · rw [flowOuts_proc_ne _ addr p a hpk, List.nil_append,
                          flowIn_cons_net_ne k addr p rest hpk]
                        exact ih s k hc hb
                  | Unknown ps =>
                      have hstep := stepT_net_unknown s addr p ps hbp hg
                      simp only [runT_cons, hstep, flowOuts_append]
                      have hcX := bufCoherent_push s.connections addr p ps hg hc
                      have IH' : List.Sublist
                          (flowOuts k (runT (⟨lruModify s.connections p.connection_id
                              (pushPacket addr p), s.state⟩ : LoopState) rest).2)
                          (pendingAt (lruModify s.connections p.connection_id
                              (pushPacket addr p)) k ++ flowIn k rest) :=
                        ih _ k hcX hb
                      rw [show flowOuts k ([] : List TOutput) = [] from rfl, List.nil_append]
                      by_cases hpk : p.connection_id = k
                      · subst hpk
                        rw [pendingAt_push s.connections _ addr p ps hg] at IH'
                        rw [flowIn_cons_net_eq _ addr p rest rfl]
                        rw [List.append_assoc] at IH'
                        exact IH'
                      · rw [pendingAt_modify_ne _ _ _ k hpk] at IH'
                        rw [flowIn_cons_net_ne k addr p rest hpk]
                        exact IH'
      | SocketEvent ev pid proto la ra =>
          by_cases hpid : pid = 4
          · subst hpid
            have hstep := stepT_sock_pid4 s ev proto la ra
            simp only [runT_cons, hstep, flowOuts_append]
            rw [flowIn_cons_none k (.SocketEvent ev 4 proto la ra) rest rfl]
            rw [show flowOuts k ([] : List TOutput) = [] from rfl, List.nil_append]
            exact ih s k hc hb
          · cases proto with
            | none =>
                have hstep := stepT_sock_noproto s ev pid la ra
                simp only [runT_cons, hstep, flowOuts_append]
                rw [flowIn_cons_none k (.SocketEvent ev pid none la ra) rest rfl]
                rw [show flowOuts k ([] : List TOutput) = [] from rfl, List.nil_append]
                exact ih s k hc hb
            | some proto =>
                by_cases hmc : (la.ip.is_multicast || ra.ip.is_multicast) = true
                · have hstep := stepT_sock_mc s ev pid proto la ra hmc
                  simp only [runT_cons, hstep, flowOuts_append]
                  rw [flowIn_cons_none k (.SocketEvent ev pid (some proto) la ra) rest rfl]
                  rw [show flowOuts k ([] : List TOutput) = [] from rfl, List.nil_append]
                  exact ih s k hc hb
                · rw [Bool.not_eq_true] at hmc
                  have hce : ∀ hev : ev = WinDivertEvent.SocketConnect
                        ∨ ev = WinDivertEvent.SocketAccept,
                      List.Sublist
                        (flowOuts k (runT s
                          (Message.SocketEvent ev pid (some proto) la ra :: rest)).2)
                        (pendingAt s.connections k
                          ++ flowIn k (Message.SocketEvent ev pid (some proto) la ra :: rest)) := by
                    intro hev
                    rw [flowIn_cons_none k (.SocketEvent ev pid (some proto) la ra) rest
                      (by rcases hev with rfl | rfl <;> rfl)]
                    rcases hme : lruGet s.connections ⟨proto, la, ra⟩ with _ | (b | ps)
                    on_goal 2 =>
                      have hstep := stepT_connect_known s ev pid proto la ra b hev hme
                      simp only [runT_cons, hstep, flowOuts_append]
                      rw [show flowOuts k ([] : List TOutput) = [] from rfl,
                        List.nil_append]
                      exact ih s k hc hb
                    all_goals {
                      first
                      | (have hstep := stepT_connect_entry s ev pid proto la ra hev hpid hmc
                          (Or.inl hme))
                      | (have hstep := stepT_connect_entry s ev pid proto la ra hev hpid hmc
                          (Or.inr ⟨_, hme⟩))
                      simp only [runT_cons, hstep, flowOuts_append]
                      have hcR : BufCoherent (insert_into_connectionsT s.connections
                          (ConnectionId.mk proto la ra).reverse .None).1 := by
                        rw [iicT_fst]
                        exact bufCoherent_insert_into _ _ _ hc
                      have hcX : BufCoherent (insert_into_connectionsT
                          (insert_into_connectionsT s.connections
                            (ConnectionId.mk proto la ra).reverse .None).1
                          (⟨proto, la, ra⟩ : ConnectionId)
                          (if s.state.should_intercept pid then .Intercept else .None)).1 := by
                        rw [iicT_fst, iicT_fst]
                        exact bufCoherent_insert_into _ _ _
                          (bufCoherent_insert_into _ _ _ hc)
                      have hA := flowOuts_iicT s.connections
                        (ConnectionId.mk proto la ra).reverse .None k hc
                      have hB := flowOuts_iicT (insert_into_connectionsT s.connections
                          (ConnectionId.mk proto la ra).reverse .None).1
                        (⟨proto, la, ra⟩ : ConnectionId)
                        (if s.state.should_intercept pid then .Intercept else .None) k hcR
                      have hpend1 : pendingAt (insert_into_connectionsT s.connections
                            (ConnectionId.mk proto la ra).reverse .None).1 k
                          = if (ConnectionId.mk proto la ra).reverse = k then []
                            else pendingAt s.connections k := by
                        rw [iicT_fst]
                        exact pendingAt_insert_into _ _ _ _
                      have IH' : List.Sublist
                          (flowOuts k (runT (⟨(insert_into_connectionsT
                              (insert_into_connectionsT s.connections
                                (ConnectionId.mk proto la ra).reverse .None).1
                              (⟨proto, la, ra⟩ : ConnectionId)
                              (if s.state.should_intercept pid then .Intercept
                                else .None)).1, s.state⟩ : LoopState) rest).2)
                          (pendingAt (insert_into_connectionsT
                              (insert_into_connectionsT s.connections
                                (ConnectionId.mk proto la ra).reverse .None).1
                              (⟨proto, la, ra⟩ : ConnectionId)
                              (if s.state.should_intercept pid then .Intercept
                                else .None)).1 k ++ flowIn k rest) :=
                        ih _ k hcX hb
                      have hpendX : pendingAt (insert_into_connectionsT
                            (insert_into_connectionsT s.connections
                              (ConnectionId.mk proto la ra).reverse .None).1
                            (⟨proto, la, ra⟩ : ConnectionId)
                            (if s.state.should_intercept pid then .Intercept
                              else .None)).1 k
                          = if (⟨proto, la, ra⟩ : ConnectionId) = k then []
                            else if (ConnectionId.mk proto la ra).reverse = k then []
                            else pendingAt s.connections k := by
                        rw [iicT_fst, iicT_fst]
                        exact pendingAt_double _ _ _ _ _
                      rw [hpendX] at IH'
                      rw [hA, hB, hpend1]
                      by_cases hck : (⟨proto, la, ra⟩ : ConnectionId) = k
                      · rw [if_pos hck]
                        rw [if_pos hck] at IH'
                        by_cases hrk : (ConnectionId.mk proto la ra).reverse = k
                        · rw [if_pos hrk, if_pos hrk]
                          simp only [List.append_nil]
                          exact IH'.append_left _
                        · rw [if_neg hrk, if_neg hrk]
                          simp only [List.nil_append]
                          exact IH'.append_left _
                      · rw [if_neg hck]
                        rw [if_neg hck] at IH'
                        by_cases hrk : (ConnectionId.mk proto la ra).reverse = k
                        · rw [if_pos hrk]
                          rw [if_pos hrk] at IH'
                          simp only [List.append_nil]
                          exact IH'.append_left _
                        · rw [if_neg hrk]
                          rw [if_neg hrk] at IH'
                          simp only [List.nil_append]
                          exact IH'
                    }
                  cases ev with
                  | SocketConnect => exact hce (Or.inl rfl)
                  | SocketAccept => exact hce (Or.inr rfl)
                  | SocketClose =>
                      have hstep := stepT_close s pid proto la ra hpid hmc
                      simp only [runT_cons, hstep, flowOuts_append]
                      have hcX := bufCoherent_clear s.connections ⟨proto, la, ra⟩ hc
                      have IH' : List.Sublist
                          (flowOuts k (runT (⟨lruModify s.connections ⟨proto, la, ra⟩
                              clearBuffer, s.state⟩ : LoopState) rest).2)
                          (pendingAt (lruModify s.connections ⟨proto, la, ra⟩
                              clearBuffer) k ++ flowIn k rest) :=
                        ih _ k hcX hb
                      rw [flowIn_cons_none k
                        (.SocketEvent .SocketClose pid (some proto) la ra) rest rfl]
                      rw [show flowOuts k ([] : List TOutput) = [] from rfl,
                        List.nil_append]
                      by_cases hck : (⟨proto, la, ra⟩ : ConnectionId) = k
                      · subst hck
                        rw [pendingAt_clear] at IH'
                        exact IH'.trans (List.sublist_append_right _ _)
                      · rw [pendingAt_modify_ne _ _ _ k hck] at IH'
                        exact IH'
                  | Other =>
                      have hstep := stepT_sock_other s pid (some proto) la ra
                      simp only [runT_cons, hstep, flowOuts_append]
                      rw [flowIn_cons_none k
                        (.SocketEvent .Other pid (some proto) la ra) rest rfl]
                      rw [show flowOuts k ([] : List TOutput) = [] from rfl,
                        List.nil_append]
                      exact ih s k hc hb
      | Inject buf =>
          have hstep := stepT_inject_eq s buf
          simp only [runT_cons, hstep, flowOuts_append]
          rw [flowIn_cons_none k (.Inject buf) rest rfl]
          rw [show flowOuts k [TOutput.injectRaw injectMeta buf] = [] from rfl,
            List.nil_append]
          exact ih s k hc hb
      | InterceptInclude a =>
          have hstep := stepT_include s a
          simp only [runT_cons, hstep, flowOuts_append]
          rw [flowIn_cons_none k (.InterceptInclude a) rest rfl]
          rw [show flowOuts k ([] : List TOutput) = [] from rfl, List.nil_append]
          exact ih (⟨s.connections, .InterceptInclude a⟩ : LoopState) k hc hb
      | InterceptExclude a =>
          have hstep := stepT_exclude s a
          simp only [runT_cons, hstep, flowOuts_append]
          rw [flowIn_cons_none k (.InterceptExclude a) rest rfl]
          rw [show flowOuts k ([] : List TOutput) = [] from rfl, List.nil_append]
          exact ih (⟨s.connections, .InterceptExclude a⟩ : LoopState) k hc hb

end Redirector

namespace Redirector

/-! ## C3: insert-with-drain order preservation -/

/-- C3: (1) inserting a Known entry over a Pending one feeds every
buffered (metadata, packet) pair through `process_packet` with the new
action, in the buffer's arrival order; (2) the drained outputs of an
event are emitted before any output of a later merged-queue event;
(3) the traced semantics agrees with the byte-level one under erasure,
so traced outputs are the real outputs; (4) consequently, for every
non-bypassed connection, the sequence of packets dispatched for that
connection is an order-preserving selection (a sublist) of the sequence
of its ingested packets: same-connection outputs never occur out of
ingest order. -/
theorem C3_order_preservation :
    (∀ (t : Table) (key : ConnectionId) (a : ConnectionAction)
        (ps : List (WinDivertNetworkData × InternetPacket)),
      lruGet t key = some (.Unknown ps) →
      (insert_into_connections t key a).2
        = ps.map fun q => process_packet q.1 q.2 a)
    ∧ (∀ (s : LoopState) (m : Message) (msgs : List Message),
      run s (m :: msgs)
        = ((run (step s m).1 msgs).1, (step s m).2 ++ (run (step s m).1 msgs).2))
    ∧ (∀ (s : LoopState) (msgs : List Message),
      (runT s msgs).1 = (run s msgs).1 ∧ (runT s msgs).2.map eraseT = (run s msgs).2)
    ∧ (∀ (msgs : List Message) (k : ConnectionId),
      cidBypass k = false →
      List.Sublist (flowOuts k (runT initState msgs).2) (flowIn k msgs)) :=
  ⟨insert_into_drain,
   run_cons,
   fun s msgs => ⟨runT_fst msgs s, runT_snd msgs s⟩,
   fun msgs k hb => by
     have hc0 : BufCoherent initState.connections := by
       intro k' ps hget
       simp [lruGet, initState] at hget
     have h := flow_order msgs initState k hc0 hb
     simpa [pendingAt, lruGet, initState] using h⟩

/-- Witness for C3: draining a two-packet buffer with action Intercept
emits both packets over IPC in arrival order. -/
theorem C3_order_witness :
    lruGet [(exCid, ConnectionState.Unknown [(exMd, exPkt), (exMd, exPkt2)])] exCid
        = some (.Unknown [(exMd, exPkt), (exMd, exPkt2)])
    ∧ (insert_into_connections
        [(exCid, ConnectionState.Unknown [(exMd, exPkt), (exMd, exPkt2)])]
        exCid .Intercept).2
        = [Output.ipcPacket exPkt.inner, Output.ipcPacket exPkt2.inner] :=
  ⟨by decide, by
    rw [C3_order_preservation.1
      [(exCid, ConnectionState.Unknown [(exMd, exPkt), (exMd, exPkt2)])]
      exCid .Intercept [(exMd, exPkt), (exMd, exPkt2)] (by decide)]
    rfl⟩

end Redirector
